import Mathlib

/-! The `nes_simulator` CPU core: `src/cpu/cpu.h`, `src/cpu/cpu.cpp`, `src/cpu/opcode.h`.

A shallow embedding of the 6502 instruction core.

* `uint8` / `uint16` values are natural numbers; every implicit C++ conversion
  back to a machine width is an explicit reduction (`u8`, `u16`, `u8i`, `u16i`).
  Expressions that C++ evaluates in `int` and that can go negative
  (`sp--`, `reg - data`, `-(m + 1)`, `(int8) m`, `bytes - 1`) are integers.
* `cpu::memory` is a map from the `uint16` index to the stored byte: an access is modelled at
  every index, whatever the declared extent of the C++ array.
* `opcodes` is indexed through its declared extent: a subscript outside it has no element.
* `cpu::get_addr` can throw; it returns an `Option`.
* `cpu::run` is a `while (true)` loop; `run_step` is one pass through its body
  and `run` iterates it under a fuel bound.
-/

namespace nes_simulator

/-! ## Machine integers -/

/-- Conversion of a non-negative `int` to `uint8`. -/
def u8 (n : Nat) : Nat := n % 256

/-- Conversion of a non-negative `int` to `uint16`. -/
def u16 (n : Nat) : Nat := n % 65536

/-- Conversion of a possibly negative `int` to `uint8`. -/
def u8i (i : Int) : Nat := (i % 256).toNat

/-- Conversion of a possibly negative `int` to `uint16`. -/
def u16i (i : Int) : Nat := (i % 65536).toNat

/-- The cast `(int8) m` of a `uint8`: the byte read as two's complement. -/
def int8 (m : Nat) : Int :=
  if m % 256 < 128 then ((m % 256 : Nat) : Int) else ((m % 256 : Nat) : Int) - 256

/-- Conversion of an integer to `bool`: non-zero is `true`. -/
def to_bool (n : Nat) : Bool := n != 0

/-- Promotion of a `bool` to `int`. -/
def of_bool (b : Bool) : Nat := if b then 1 else 0

/-- The operator `~` on a promoted `uint8`: the 32-bit pattern of the complement. -/
def int_not (n : Nat) : Nat := 0xFFFFFFFF - n

/-! ## `cpu.h` -/

/-- The enumeration `AddressingMode` of `cpu.h`. -/
inductive AddressingMode
  | Immediate
  | ZeroPage
  | Absolute
  | ZeroPage_X
  | ZeroPage_Y
  | Absolute_X
  | Absolute_Y
  | Indirect_X
  | Indirect_Y
  | Relative
  | Implied
  deriving DecidableEq

/-- The enumeration `flag` of `cpu.h`. -/
inductive flag
  | CarryFlag
  | ZeroFlag
  | InterruptDisable
  | DecimalModeFlag
  | BreakCommand
  | BreakCommand2
  | OverflowFlag
  | NegativeFlag
  deriving DecidableEq

/-- The enumerator values of `flag` (`static_cast<int>(flag)`). -/
def flag.toInt : flag → Nat
  | .CarryFlag => 0
  | .ZeroFlag => 1
  | .InterruptDisable => 2
  | .DecimalModeFlag => 3
  | .BreakCommand => 4
  | .BreakCommand2 => 5
  | .OverflowFlag => 6
  | .NegativeFlag => 7

/-- The constant `STACK`. -/
def STACK : Nat := 0x0100

/-- The constant `STACK_RESET`. -/
def STACK_RESET : Nat := 0xFD

/-- The data members of `class cpu`. `memory` maps a `uint16` index to the byte stored there. -/
structure cpu where
  reg_a : Nat
  reg_x : Nat
  reg_y : Nat
  sp : Nat
  status : Nat
  pc : Nat
  memory : Nat → Nat

/-- The values a `cpu` object can hold: five `uint8` members, a `uint16` member and
`uint8` memory cells. -/
def cpu.wf (s : cpu) : Prop :=
  s.reg_a < 256 ∧ s.reg_x < 256 ∧ s.reg_y < 256 ∧ s.sp < 256 ∧ s.status < 256 ∧
  s.pc < 65536 ∧ ∀ a, s.memory a < 256

/-! ## `cpu.cpp` -/

/-- The constructor `cpu::cpu()`. -/
def cpu_new : cpu :=
  { reg_a := 0, reg_x := 0, reg_y := 0, sp := STACK_RESET, status := 0b100100, pc := 0,
    memory := fun _ => 0 }

/-- The member `cpu::mem_read`. -/
def mem_read (s : cpu) (addr : Nat) : Nat := s.memory addr

/-- The member `cpu::mem_read_uint16`. -/
def mem_read_uint16 (s : cpu) (addr : Nat) : Nat :=
  u16 (u16 (mem_read s (u16 (addr + 1)) <<< 8) ||| mem_read s addr)

/-- The member `cpu::mem_write`. -/
def mem_write (s : cpu) (addr : Nat) (val : Nat) : cpu :=
  { s with memory := fun a => if a = addr then val else s.memory a }

/-- The member `cpu::mem_write_uint16`. -/
def mem_write_uint16 (s : cpu) (addr : Nat) (val : Nat) : cpu :=
  mem_write (mem_write s addr (u8 (val &&& 0xFF))) (u16 (addr + 1)) (u8 (val >>> 8))

/-- The member `cpu::stack_pop`: the popped byte and the state after `sp++`. -/
def stack_pop (s : cpu) : Nat × cpu :=
  let s1 := { s with sp := u8 (s.sp + 1) }
  (mem_read s1 (u16 (STACK + s1.sp)), s1)

/-- The member `cpu::stack_pop_uint16`. -/
def stack_pop_uint16 (s : cpu) : Nat × cpu :=
  let lo := (stack_pop s).1
  let s1 := (stack_pop s).2
  let hi := (stack_pop s1).1
  let s2 := (stack_pop s1).2
  (u16 ((hi <<< 8) ||| lo), s2)

/-- The member `cpu::stack_push`. -/
def stack_push (s : cpu) (data : Nat) : cpu :=
  let s1 := mem_write s (u16 (STACK + s.sp)) data
  { s1 with sp := u8i ((s1.sp : Int) - 1) }

/-- The member `cpu::stack_push_uint16`. -/
def stack_push_uint16 (s : cpu) (data : Nat) : cpu :=
  stack_push (stack_push s (u8 (data >>> 8))) (u8 (data &&& 0xff))

/-- The member `cpu::get_addr`; `none` is the `std::runtime_error` thrown after the switch. -/
def get_addr (s : cpu) (mode : AddressingMode) : Option Nat :=
  match mode with
  | .Immediate => some s.pc
  | .Relative => some s.pc
  | .ZeroPage => some (mem_read s s.pc)
  | .Absolute => some (mem_read_uint16 s s.pc)
  | .ZeroPage_X => some (u16 (mem_read s s.pc + s.reg_x))
  | .ZeroPage_Y => some (u16 (mem_read s s.pc + s.reg_y))
  | .Absolute_X => some (u16 (mem_read_uint16 s s.pc + s.reg_x))
  | .Absolute_Y => some (u16 (mem_read_uint16 s s.pc + s.reg_y))
  | .Indirect_X =>
    let ptr := u8 (mem_read s s.pc + s.reg_x)
    some (u16 (u16 (mem_read s (u16 (ptr + 1)) <<< 8) ||| mem_read s ptr))
  | .Indirect_Y =>
    let ptr := mem_read s s.pc
    some (u16 ((u16 (mem_read s (u16 (ptr + 1)) <<< 8) ||| mem_read s ptr) + s.reg_y))
  | .Implied => none

/-- The member `cpu::status_bit_get`. -/
def status_bit_get (s : cpu) (f : flag) : Bool :=
  let t := u8 (1 <<< f.toInt)
  to_bool (s.status &&& t)

/-- The member `cpu::status_bit_set`. -/
def status_bit_set (s : cpu) (f : flag) (v : Bool) : cpu :=
  let t := u8 (1 <<< f.toInt)
  if v then { s with status := u8 (s.status ||| t) }
  else { s with status := u8 (s.status &&& int_not t) }

/-- The member `cpu::update_zero_negative_flag`. -/
def update_zero_negative_flag (s : cpu) (reg : Nat) : cpu :=
  status_bit_set (status_bit_set s .ZeroFlag (decide (reg = 0))) .NegativeFlag
    (to_bool (reg &&& 0x80))

/-- The member `cpu::reset`. -/
def reset (s : cpu) : cpu :=
  let s1 := { s with reg_a := 0, reg_x := 0, reg_y := 0 }
  let s2 := { s1 with sp := STACK_RESET }
  let s3 := { s2 with status := 0b100100 }
  { s3 with pc := mem_read_uint16 s3 0xFFFC }

/-- The member `cpu::load`: `memcpy` of the program to `memory + 0x600`, then the reset vector. -/
def load (s : cpu) (program : List Nat) : cpu :=
  let s1 := { s with memory := fun a =>
    if 0x600 ≤ a ∧ a < 0x600 + program.length then program.getD (a - 0x600) 0 else s.memory a }
  mem_write_uint16 s1 0xFFFC 0x600

/-! ## `opcode.h` -/

/-- The enumeration `OpcodeType` of `opcode.h`, in declaration order. -/
inductive OpcodeType
  | ADC
  | LDA
  | AND
  | BCC
  | BCS
  | BEQ
  | NOP
  | ORA
  | EOR
  | INX
  | INY
  | ASL
  | ASL_ACC
  | BIT
  | BMI
  | BNE
  | BPL
  | BVC
  | BVS
  | CLC
  | CLD
  | CLI
  | CLV
  | CMP
  | CPX
  | CPY
  | SBC
  | SLC
  | SLD
  | SLI
  | LDX
  | LDY
  | LSR_ACC
  | LSR
  | TAX
  | TAY
  | TSX
  | TXA
  | TXS
  | TYA
  | JMP_ABS
  | JMP_IND
  | JSR
  | DEX
  | DEY
  | STA
  | STX
  | STY
  | PHA
  | PHP
  | PLA
  | PLP
  | BRK
  | ROL_ACC
  | ROL
  | ROR_ACC
  | ROR
  | RTI
  | RTS
  | INC
  | DEC
  deriving DecidableEq

/-- The struct `opcode_info`. -/
structure opcode_info where
  opcode : OpcodeType
  bytes : Nat
  cycle : Nat
  mode : AddressingMode
  deriving DecidableEq

/-- One designated initialiser `[i] = {opcode, bytes, cycle, mode}` of the array `opcodes`. -/
def init (i : Nat) (opcode : OpcodeType) (bytes cycle : Nat) (mode : AddressingMode) :
    Nat × opcode_info := (i, ⟨opcode, bytes, cycle, mode⟩)

/-- The designated initialisers of the array `opcodes`, in source order. -/
def opcodes_init : List (Nat × opcode_info) := [
  init 0x69 .ADC 2 2 .Immediate, init 0x65 .ADC 2 3 .ZeroPage,
  init 0x75 .ADC 2 4 .ZeroPage_X, init 0x6D .ADC 3 4 .Absolute,
  init 0x7D .ADC 3 4 .Absolute_X, init 0x79 .ADC 3 4 .Absolute_Y,
  init 0x61 .ADC 2 6 .Indirect_X, init 0x71 .ADC 2 5 .Indirect_Y,
  init 0xE9 .SBC 2 2 .Immediate, init 0xE5 .SBC 2 3 .ZeroPage,
  init 0xF5 .SBC 2 4 .ZeroPage_X, init 0xED .SBC 3 4 .Absolute,
  init 0xFD .SBC 3 4 .Absolute_X, init 0xF9 .SBC 3 4 .Absolute_Y,
  init 0xE1 .SBC 2 6 .Indirect_X, init 0xF1 .SBC 2 5 .Indirect_Y,
  init 0x0A .ASL_ACC 1 2 .Implied, init 0x06 .ASL 2 5 .ZeroPage,
  init 0x16 .ASL 2 6 .ZeroPage_X, init 0x0E .ASL 3 6 .Absolute,
  init 0x1E .ASL 3 7 .Absolute_X, init 0x29 .AND 2 2 .Immediate,
  init 0x25 .AND 2 3 .ZeroPage, init 0x35 .AND 2 4 .ZeroPage_X,
  init 0x2D .AND 3 4 .Absolute, init 0x3D .AND 3 4 .Absolute_X,
  init 0x39 .AND 3 4 .Absolute_Y, init 0x21 .AND 2 6 .Indirect_X,
  init 0x31 .AND 2 5 .Indirect_Y, init 0x90 .BCC 2 2 .Relative,
  init 0xB0 .BCS 2 2 .Relative, init 0xF0 .BEQ 2 2 .Relative,
  init 0x30 .BMI 2 2 .Relative, init 0xD0 .BNE 2 2 .Relative,
  init 0x10 .BPL 2 2 .Relative, init 0x50 .BVC 2 2 .Relative,
  init 0x70 .BVS 2 2 .Relative, init 0x4C .JMP_ABS 3 3 .Immediate,
  init 0x6C .JMP_IND 3 5 .Immediate, init 0x20 .JSR 3 6 .Immediate,
  init 0x18 .CLC 1 2 .Implied, init 0xD8 .CLD 1 2 .Implied,
  init 0x58 .CLI 1 2 .Implied, init 0xB8 .CLV 1 2 .Implied,
  init 0x38 .SLC 1 2 .Implied, init 0xF8 .SLD 1 2 .Implied,
  init 0x78 .SLI 1 2 .Implied, init 0xE6 .INC 2 5 .ZeroPage,
  init 0xF6 .INC 2 6 .ZeroPage_X, init 0xEE .INC 3 6 .Absolute,
  init 0xFE .INC 3 7 .Absolute_X, init 0xC6 .DEC 2 5 .ZeroPage,
  init 0xD6 .DEC 2 6 .ZeroPage_X, init 0xCE .DEC 3 6 .Absolute,
  init 0xDE .DEC 3 7 .Absolute_X, init 0xE8 .INX 1 2 .Implied,
  init 0xC8 .INY 1 2 .Implied, init 0xCA .DEX 1 2 .Implied,
  init 0x88 .DEY 1 2 .Implied, init 0x24 .BIT 2 3 .ZeroPage,
  init 0x2C .BIT 3 4 .Absolute, init 0xEA .NOP 1 2 .Implied,
  init 0x09 .ORA 2 2 .Immediate, init 0x05 .ORA 2 3 .ZeroPage,
  init 0x15 .ORA 2 4 .ZeroPage_X, init 0x0D .ORA 3 4 .Absolute,
  init 0x1D .ORA 3 4 .Absolute_X, init 0x19 .ORA 3 4 .Absolute_Y,
  init 0x01 .ORA 2 6 .Indirect_X, init 0x11 .ORA 2 5 .Indirect_Y,
  init 0x49 .EOR 2 2 .Immediate, init 0x45 .EOR 2 3 .ZeroPage,
  init 0x55 .EOR 2 4 .ZeroPage_X, init 0x4D .EOR 3 4 .Absolute,
  init 0x5D .EOR 3 4 .Absolute_X, init 0x59 .EOR 3 4 .Absolute_Y,
  init 0x41 .EOR 2 6 .Indirect_X, init 0x51 .EOR 2 5 .Indirect_Y,
  init 0xA9 .LDA 2 2 .Immediate, init 0xA5 .LDA 2 3 .ZeroPage,
  init 0xB5 .LDA 2 4 .ZeroPage_X, init 0xAD .LDA 3 4 .Absolute,
  init 0xBD .LDA 3 4 .Absolute_X, init 0xB9 .LDA 3 4 .Absolute_Y,
  init 0xA1 .LDA 2 6 .Indirect_X, init 0xB1 .LDA 2 5 .Indirect_Y,
  init 0xA2 .LDX 2 2 .Immediate, init 0xA6 .LDX 2 3 .ZeroPage,
  init 0xB6 .LDX 2 4 .ZeroPage_Y, init 0xAE .LDX 3 4 .Absolute,
  init 0xBE .LDX 3 4 .Absolute_Y, init 0xA0 .LDY 2 2 .Immediate,
  init 0xA4 .LDY 2 3 .ZeroPage, init 0xB4 .LDY 2 4 .ZeroPage_X,
  init 0xAC .LDY 3 4 .Absolute, init 0xBC .LDY 3 4 .Absolute_X,
  init 0x85 .STA 2 3 .ZeroPage, init 0x95 .STA 2 4 .ZeroPage_X,
  init 0x8D .STA 3 4 .Absolute, init 0x9D .STA 3 4 .Absolute_X,
  init 0x99 .STA 3 4 .Absolute_Y, init 0x81 .STA 2 6 .Indirect_X,
  init 0x91 .STA 2 5 .Indirect_Y, init 0x86 .STX 2 3 .ZeroPage,
  init 0x96 .STX 2 4 .ZeroPage_Y, init 0x8E .STX 3 4 .Absolute,
  init 0x84 .STY 2 3 .ZeroPage, init 0x94 .STY 2 4 .ZeroPage_X,
  init 0x8C .STY 3 4 .Absolute, init 0xC9 .CMP 2 2 .Immediate,
  init 0xC5 .CMP 2 3 .ZeroPage, init 0xD5 .CMP 2 4 .ZeroPage_X,
  init 0xCD .CMP 3 4 .Absolute, init 0xDD .CMP 3 4 .Absolute_X,
  init 0xD9 .CMP 3 4 .Absolute_Y, init 0xC1 .CMP 2 6 .Indirect_X,
  init 0xD1 .CMP 2 5 .Indirect_Y, init 0xE0 .CPX 2 2 .Immediate,
  init 0xE4 .CPX 2 3 .ZeroPage, init 0xEC .CPX 3 4 .Absolute,
  init 0xC0 .CPY 2 2 .Immediate, init 0xC4 .CPY 2 3 .ZeroPage,
  init 0xCC .CPY 3 4 .Absolute, init 0x4A .LSR_ACC 1 2 .Implied,
  init 0x46 .LSR 2 5 .ZeroPage, init 0x56 .LSR 2 6 .ZeroPage_X,
  init 0x4E .LSR 3 6 .Absolute, init 0x5E .LSR 3 7 .Absolute_X,
  init 0xAA .TAX 1 2 .Implied, init 0x8A .TXA 1 2 .Implied,
  init 0xA8 .TAY 1 2 .Implied, init 0x98 .TYA 1 2 .Implied,
  init 0xBA .TSX 1 2 .Implied, init 0x9A .TXS 1 2 .Implied,
  init 0x48 .PHA 1 3 .Implied, init 0x08 .PHP 1 3 .Implied,
  init 0x68 .PLA 1 3 .Implied, init 0x28 .PLP 1 3 .Implied,
  init 0x00 .BRK 1 1 .Implied, init 0x2A .ROL_ACC 1 2 .Implied,
  init 0x26 .ROL 2 5 .ZeroPage, init 0x36 .ROL 2 6 .ZeroPage_X,
  init 0x2E .ROL 3 6 .Absolute, init 0x3E .ROL 3 7 .Absolute_X,
  init 0x6A .ROR_ACC 1 2 .Implied, init 0x66 .ROR 2 5 .ZeroPage,
  init 0x76 .ROR 2 6 .ZeroPage_X, init 0x6E .ROR 3 6 .Absolute,
  init 0x7E .ROR 3 7 .Absolute_X, init 0x40 .RTI 1 6 .Implied,
  init 0x60 .RTS 1 6 .Implied
]

/-- The declared extent of the array `opcodes` (`opcodes[0xFF]`). -/
def opcodes_extent : Nat := 0xFF

/-- An element of `opcodes` without an initialiser: every member is zero, which is the first
enumerator of `OpcodeType` and of `AddressingMode`. -/
def opcode_info_zero : opcode_info := ⟨.ADC, 0, 0, .Immediate⟩

/-- The element of `opcodes` at an index inside the declared extent: the initialiser that
designates the index, or the zero element when no initialiser does. -/
def opcodes_elem (i : Nat) : opcode_info := (opcodes_init.lookup i).getD opcode_info_zero

/-- The subscript `opcodes[i]`; `none` when `i` is outside the declared extent. -/
def opcodes (i : Nat) : Option opcode_info :=
  if i < opcodes_extent then some (opcodes_elem i) else none

/-! ## `cpu::run` -/

/-- How control leaves the `switch` of `cpu::run`. -/
inductive switch_exit
  /-- A `break`: control reaches the check after the switch. -/
  | done (s : cpu)
  /-- The `return` of `case OpcodeType::BRK`. -/
  | ret (s : cpu)
  /-- The exception of `get_addr` propagates out of `run`. -/
  | thrown

/-- A case body that evaluates `get_addr(info.mode)` first and then breaks. -/
def with_addr (s : cpu) (mode : AddressingMode) (body : Nat → cpu) : switch_exit :=
  match get_addr s mode with
  | some addr => .done (body addr)
  | none => .thrown

/-- The statement `pc += (int8)(mem_read(get_addr(info.mode))) + 1` of the branch cases. -/
def branch_taken (s : cpu) (mode : AddressingMode) : switch_exit :=
  with_addr s mode fun addr =>
    { s with pc := u16i ((s.pc : Int) + (int8 (mem_read s addr) + 1)) }

/-- The value of the third argument in the `OverflowFlag` statement of ADC and SBC:
`static_cast<uint8>(tmp ^ base) & static_cast<uint8>(tmp ^ reg_a) & 0x80 != 0`,
in which `!=` binds tighter than `&`. -/
def overflow_arg (tmp base reg_a : Nat) : Nat :=
  u8 (tmp ^^^ base) &&& u8 (tmp ^^^ reg_a) &&& of_bool (decide (0x80 ≠ 0))

/-- The `switch (info.opcode)` of `cpu::run`, entered in state `s` (whose `pc` is already past
the opcode byte). -/
def run_switch (info : opcode_info) (s : cpu) : switch_exit :=
  match info.opcode with
  | .LDA => with_addr s info.mode fun addr =>
      let s1 := { s with reg_a := mem_read s addr }
      update_zero_negative_flag s1 s1.reg_a
  | .LDX => with_addr s info.mode fun addr =>
      let s1 := { s with reg_x := mem_read s addr }
      update_zero_negative_flag s1 s1.reg_x
  | .LDY => with_addr s info.mode fun addr =>
      let s1 := { s with reg_y := mem_read s addr }
      update_zero_negative_flag s1 s1.reg_y
  | .STA => with_addr s info.mode fun addr => mem_write s addr s.reg_a
  | .STX => with_addr s info.mode fun addr => mem_write s addr s.reg_x
  | .STY => with_addr s info.mode fun addr => mem_write s addr s.reg_y
  | .ADC => with_addr s info.mode fun addr =>
      let base := mem_read s addr
      let tmp := u16 (s.reg_a + base + of_bool (status_bit_get s .CarryFlag))
      let s1 := status_bit_set s .CarryFlag (decide (tmp > 0xff))
      let s2 := status_bit_set s1 .OverflowFlag (to_bool (overflow_arg tmp base s1.reg_a))
      let s3 := { s2 with reg_a := u8 (tmp &&& 0xff) }
      update_zero_negative_flag s3 s3.reg_a
  | .SBC => with_addr s info.mode fun addr =>
      let base := u8i (-((mem_read s addr : Int) + 1))
      let tmp := u16 (s.reg_a + base + of_bool (status_bit_get s .CarryFlag))
      let s1 := status_bit_set s .CarryFlag (decide (tmp > 0xff))
      let s2 := status_bit_set s1 .OverflowFlag (to_bool (overflow_arg tmp base s1.reg_a))
      let s3 := { s2 with reg_a := u8 (tmp &&& 0xff) }
      update_zero_negative_flag s3 s3.reg_a
  | .AND => with_addr s info.mode fun addr =>
      let s1 := { s with reg_a := u8 (s.reg_a &&& mem_read s addr) }
      update_zero_negative_flag s1 s1.reg_a
  | .BCC => if !status_bit_get s .CarryFlag then branch_taken s info.mode else .done s
  | .BCS => if status_bit_get s .CarryFlag then branch_taken s info.mode else .done s
  | .BEQ => if status_bit_get s .ZeroFlag then branch_taken s info.mode else .done s
  | .BMI => if status_bit_get s .NegativeFlag then branch_taken s info.mode else .done s
  | .BNE => if !status_bit_get s .ZeroFlag then branch_taken s info.mode else .done s
  | .BPL => if !status_bit_get s .NegativeFlag then branch_taken s info.mode else .done s
  | .BVC => if !status_bit_get s .OverflowFlag then branch_taken s info.mode else .done s
  | .BVS => if status_bit_get s .OverflowFlag then branch_taken s info.mode else .done s
  | .JMP_ABS => with_addr s info.mode fun addr => { s with pc := mem_read_uint16 s addr }
  | .JMP_IND => with_addr s info.mode fun a =>
      let addr := mem_read_uint16 s a
      if (addr &&& 0xFF) = 0xFF then
        { s with pc := u16 ((mem_read s (u16 (addr &&& 0xFF00)) <<< 8) ||| mem_read s addr) }
      else
        { s with pc := mem_read_uint16 s addr }
  | .JSR =>
      let s1 := stack_push_uint16 s (u16 (s.pc + 2 - 1))
      .done { s1 with pc := mem_read_uint16 s1 s1.pc }
  | .NOP => .done s
  | .ORA => with_addr s info.mode fun addr =>
      let s1 := { s with reg_a := u8 (s.reg_a ||| mem_read s addr) }
      update_zero_negative_flag s1 s1.reg_a
  | .EOR => with_addr s info.mode fun addr =>
      let s1 := { s with reg_a := u8 (s.reg_a ^^^ mem_read s addr) }
      update_zero_negative_flag s1 s1.reg_a
  | .INX =>
      let s1 := { s with reg_x := u8 (s.reg_x + 1) }
      .done (update_zero_negative_flag s1 s1.reg_x)
  | .INY =>
      let s1 := { s with reg_y := u8 (s.reg_y + 1) }
      .done (update_zero_negative_flag s1 s1.reg_y)
  | .DEX =>
      let s1 := { s with reg_x := u8i ((s.reg_x : Int) - 1) }
      .done (update_zero_negative_flag s1 s1.reg_x)
  | .DEY =>
      let s1 := { s with reg_y := u8i ((s.reg_y : Int) - 1) }
      .done (update_zero_negative_flag s1 s1.reg_y)
  | .ASL => with_addr s info.mode fun addr =>
      let data := mem_read s addr
      let s1 := status_bit_set s .CarryFlag (to_bool (data &&& 0x80))
      let data1 := u8 (data <<< 1)
      let s2 := mem_write s1 addr (u8 (data1 <<< 1))
      update_zero_negative_flag s2 data1
  | .ASL_ACC =>
      let s1 := status_bit_set s .CarryFlag (to_bool (s.reg_a &&& 0x80))
      .done { s1 with reg_a := u8 (s1.reg_a <<< 1) }
  | .BIT => with_addr s info.mode fun addr =>
      let data := mem_read s addr
      let tmp := u8 (s.reg_a &&& data)
      let s1 := status_bit_set s .ZeroFlag (decide (tmp = 0))
      let s2 := status_bit_set s1 .NegativeFlag (to_bool (data &&& 0x80))
      status_bit_set s2 .OverflowFlag (to_bool (data &&& 0x40))
  | .CLC => .done (status_bit_set s .CarryFlag false)
  | .CLD => .done (status_bit_set s .DecimalModeFlag false)
  | .CLI => .done (status_bit_set s .InterruptDisable false)
  | .SLC => .done (status_bit_set s .CarryFlag true)
  | .SLD => .done (status_bit_set s .DecimalModeFlag true)
  | .SLI => .done (status_bit_set s .InterruptDisable true)
  | .CLV => .done (status_bit_set s .OverflowFlag false)
  | .CMP => with_addr s info.mode fun addr =>
      let data := mem_read s addr
      let s1 := status_bit_set s .CarryFlag (decide (s.reg_a ≥ data))
      update_zero_negative_flag s1 (u8i ((s1.reg_a : Int) - data))
  | .CPX => with_addr s info.mode fun addr =>
      let data := mem_read s addr
      let s1 := status_bit_set s .CarryFlag (decide (s.reg_x ≥ data))
      update_zero_negative_flag s1 (u8i ((s1.reg_x : Int) - data))
  | .CPY => with_addr s info.mode fun addr =>
      let data := mem_read s addr
      let s1 := status_bit_set s .CarryFlag (decide (s.reg_y ≥ data))
      update_zero_negative_flag s1 (u8i ((s1.reg_y : Int) - data))
  | .LSR_ACC =>
      let s1 := status_bit_set s .CarryFlag (to_bool (s.reg_a &&& 1))
      let s2 := { s1 with reg_a := u8 (s1.reg_a >>> 1) }
      .done (update_zero_negative_flag s2 s2.reg_a)
  | .LSR => with_addr s info.mode fun addr =>
      let data := mem_read s addr
      let s1 := status_bit_set s .CarryFlag (to_bool (data &&& 1))
      let data1 := u8 (data >>> 1)
      let s2 := mem_write s1 addr data1
      update_zero_negative_flag s2 data1
  | .TAX =>
      let s1 := { s with reg_x := s.reg_a }
      .done (update_zero_negative_flag s1 s1.reg_x)
  | .TAY =>
      let s1 := { s with reg_y := s.reg_a }
      .done (update_zero_negative_flag s1 s1.reg_y)
  | .TSX =>
      let s1 := { s with reg_x := s.sp }
      .done (update_zero_negative_flag s1 s1.reg_x)
  | .TXA =>
      let s1 := { s with reg_a := s.reg_x }
      .done (update_zero_negative_flag s1 s1.reg_a)
  | .TXS =>
      let s1 := { s with sp := s.reg_x }
      .done (update_zero_negative_flag s1 s1.sp)
  | .TYA =>
      let s1 := { s with reg_a := s.reg_y }
      .done (update_zero_negative_flag s1 s1.reg_a)
  | .PHA => .done (stack_push s s.reg_a)
  | .PHP => .done (stack_push s s.status)
  | .PLA =>
      let r := stack_pop s
      let s1 := { r.2 with reg_a := r.1 }
      .done (update_zero_negative_flag s1 s1.reg_a)
  | .PLP =>
      let r := stack_pop s
      .done { r.2 with status := r.1 }
  | .BRK => .ret s
  | .ROL_ACC =>
      let old_carry := of_bool (status_bit_get s .CarryFlag)
      let s1 := status_bit_set s .CarryFlag (to_bool (s.reg_a &&& 0x80))
      let s2 := { s1 with reg_a := u8 ((s1.reg_a <<< 1) ||| old_carry) }
      .done (update_zero_negative_flag s2 s2.reg_a)
  | .ROL => with_addr s info.mode fun addr =>
      let data := mem_read s addr
      let old_carry := of_bool (status_bit_get s .CarryFlag)
      let s1 := status_bit_set s .CarryFlag (to_bool (data &&& 0x80))
      let data1 := u8 ((data <<< 1) ||| old_carry)
      let s2 := mem_write s1 addr data1
      update_zero_negative_flag s2 data1
  | .ROR_ACC =>
      let old_carry := of_bool (status_bit_get s .CarryFlag)
      let s1 := status_bit_set s .CarryFlag (to_bool (s.reg_a &&& 1))
      let s2 := { s1 with reg_a := u8 ((s1.reg_a >>> 1) ||| (old_carry <<< 7)) }
      .done (update_zero_negative_flag s2 s2.reg_a)
  | .ROR => with_addr s info.mode fun addr =>
      let data := mem_read s addr
      let old_carry := of_bool (status_bit_get s .CarryFlag)
      let s1 := status_bit_set s .CarryFlag (to_bool (data &&& 1))
      let data1 := u8 ((data >>> 1) ||| (old_carry <<< 7))
      let s2 := mem_write s1 addr data1
      update_zero_negative_flag s2 data1
  | .RTI =>
      let r := stack_pop s
      let s1 := { r.2 with status := r.1 }
      let s2 := status_bit_set s1 .BreakCommand false
      let s3 := status_bit_set s2 .BreakCommand2 true
      let r2 := stack_pop_uint16 s3
      .done { r2.2 with pc := r2.1 }
  | .RTS =>
      let r := stack_pop_uint16 s
      .done { r.2 with pc := u16 (r.1 + 1) }
  | .INC => with_addr s info.mode fun addr =>
      let data := u8 (mem_read s addr + 1)
      let s1 := mem_write s addr data
      update_zero_negative_flag s1 data
  | .DEC => with_addr s info.mode fun addr =>
      let data := u8i ((mem_read s addr : Int) - 1)
      let s1 := mem_write s addr data
      update_zero_negative_flag s1 data

/-- How one pass through the body of the `while (true)` loop of `cpu::run` ends. -/
inductive run_exit
  /-- The pass reaches the end of the loop body; the loop goes on from state `s`. -/
  | next (s : cpu)
  /-- The function `run` returns to its caller. -/
  | returned (s : cpu)
  /-- The exception of `get_addr` leaves `run`. -/
  | thrown
  /-- The subscript `opcodes[opcode]` is outside the declared extent of the array. -/
  | outside_table

/-- One pass through the loop body of `cpu::run` after the callback: fetch, table lookup,
switch, and the check `if (pc_before_op == pc) pc += info.bytes - 1`. -/
def run_step (s : cpu) : run_exit :=
  let opcode := s.memory s.pc
  let s1 := { s with pc := u16 (s.pc + 1) }
  let pc_before_op := s1.pc
  match opcodes opcode with
  | none => .outside_table
  | some info =>
    match run_switch info s1 with
    | .ret s2 => .returned s2
    | .thrown => .thrown
    | .done s2 =>
      if pc_before_op = s2.pc then
        .next { s2 with pc := u16i ((s2.pc : Int) + ((info.bytes : Int) - 1)) }
      else .next s2

/-- The statement `if (callback) callback(*this)`: the callback, when present, acts on the state. -/
def run_callback (callback : Option (cpu → cpu)) (s : cpu) : cpu :=
  match callback with
  | some f => f s
  | none => s

/-- The member `cpu::run`, limited to `fuel` passes through its loop. With no pass left the
result is `next s`: the loop is still going, about to start a pass in state `s`. -/
def run (callback : Option (cpu → cpu)) : Nat → cpu → run_exit
  | 0, s => .next s
  | fuel + 1, s =>
    match run_step (run_callback callback s) with
    | .next s1 => run callback fuel s1
    | .returned s1 => .returned s1
    | .thrown => .thrown
    | .outside_table => .outside_table

/-- The member `cpu::load_and_run`, with `run` limited to `fuel` passes. -/
def load_and_run (s : cpu) (program : List Nat) (callback : Option (cpu → cpu)) (fuel : Nat) :
    run_exit :=
  run callback fuel (reset (load s program))

/-! ## The declared extent of `memory` -/

/-- The declared extent of the array `memory` (`uint8 memory[0xFFFF]`). -/
def memory_extent : Nat := 0xFFFF

/-- The member `cpu::mem_read` with the subscript `memory[addr]` checked against the declared
extent: `none` when `addr` is outside it. -/
def mem_read_checked (s : cpu) (addr : Nat) : Option Nat :=
  if addr < memory_extent then some (s.memory addr) else none

/-- The member `cpu::mem_read_uint16` over `mem_read_checked`. -/
def mem_read_uint16_checked (s : cpu) (addr : Nat) : Option Nat :=
  match mem_read_checked s (u16 (addr + 1)), mem_read_checked s addr with
  | some hi, some lo => some (u16 (u16 (hi <<< 8) ||| lo))
  | _, _ => none

/-- The member `cpu::mem_write` with the subscript `memory[addr]` checked against the declared
extent: `none` when `addr` is outside it. -/
def mem_write_checked (s : cpu) (addr : Nat) (val : Nat) : Option cpu :=
  if addr < memory_extent then some (mem_write s addr val) else none

/-- The member `cpu::mem_write_uint16` over `mem_write_checked`. -/
def mem_write_uint16_checked (s : cpu) (addr : Nat) (val : Nat) : Option cpu :=
  match mem_write_checked s addr (u8 (val &&& 0xFF)) with
  | some s1 => mem_write_checked s1 (u16 (addr + 1)) (u8 (val >>> 8))
  | none => none

/-! ## Vocabulary of the statements -/

/-- The kinds whose case in the switch never evaluates `get_addr`. -/
def no_get_addr (op : OpcodeType) : Bool :=
  match op with
  | .JSR | .NOP | .INX | .INY | .DEX | .DEY | .ASL_ACC | .CLC | .CLD | .CLI | .SLC | .SLD
  | .SLI | .CLV | .LSR_ACC | .TAX | .TAY | .TSX | .TXA | .TXS | .TYA | .PHA | .PHP | .PLA
  | .PLP | .BRK | .ROL_ACC | .ROR_ACC | .RTI | .RTS => true
  | _ => false

/-- A table element whose case cannot reach the `throw` of `get_addr`: its mode is not
`Implied`, or its case never evaluates `get_addr`. -/
def addr_ok (info : opcode_info) : Bool :=
  decide (info.mode ≠ .Implied) || no_get_addr info.opcode

/-- The kinds whose case assigns `pc` or returns: the eight branches, the jumps, the call, the
returns and BRK. -/
def pc_assigning : List OpcodeType :=
  [.BCC, .BCS, .BEQ, .BMI, .BNE, .BPL, .BVC, .BVS, .JMP_ABS, .JMP_IND, .JSR, .RTS, .RTI, .BRK]

/-- The condition tested by the `if` of each branch case, `none` for the other kinds. -/
def branch_condition (op : OpcodeType) (s : cpu) : Option Bool :=
  match op with
  | .BCC => some (!status_bit_get s .CarryFlag)
  | .BCS => some (status_bit_get s .CarryFlag)
  | .BEQ => some (status_bit_get s .ZeroFlag)
  | .BMI => some (status_bit_get s .NegativeFlag)
  | .BNE => some (!status_bit_get s .ZeroFlag)
  | .BPL => some (!status_bit_get s .NegativeFlag)
  | .BVC => some (!status_bit_get s .OverflowFlag)
  | .BVS => some (status_bit_get s .OverflowFlag)
  | _ => none

/-- The cases of the switch that evaluate `get_addr` in state `s`: a branch when its condition
holds, and every other kind outside `no_get_addr`. -/
def evaluates_get_addr (op : OpcodeType) (s : cpu) : Bool :=
  match branch_condition op s with
  | some taken => taken
  | none => !no_get_addr op

/-! ## Concrete inputs -/

/-- A memory image that holds the listed bytes and zero elsewhere. -/
def memory_of (bytes : List (Nat × Nat)) : Nat → Nat :=
  fun a => (bytes.lookup a).getD 0

/-- A state given by its registers and a list of memory bytes. -/
def state_of (reg_a reg_x reg_y sp status pc : Nat) (bytes : List (Nat × Nat)) : cpu :=
  { reg_a := reg_a, reg_x := reg_x, reg_y := reg_y, sp := sp, status := status, pc := pc,
    memory := memory_of bytes }

/-- ADC immediate (`69 50`) at `0x0600` with accumulator `0x50` and Carry clear. -/
def adc_50_50 : cpu := state_of 0x50 0 0 0xFD 0 0x600 [(0x600, 0x69), (0x601, 0x50)]

/-- ADC immediate (`69 90`) at `0x0600` with accumulator `0xD0` and Carry clear. -/
def adc_d0_90 : cpu := state_of 0xD0 0 0 0xFD 0 0x600 [(0x600, 0x69), (0x601, 0x90)]

/-- A branch opcode at `0x0600` followed by the offset byte `0xFF`, with the given status. -/
def branch_ff (opcode status : Nat) : cpu :=
  state_of 0 0 0 0xFD status 0x600 [(0x600, opcode), (0x601, 0xFF)]

/-- The instruction `LDA $1234` (`AD 34 12`) at `0x0600`. -/
def lda_absolute : cpu :=
  state_of 0 0 0 0xFD 0 0x600 [(0x600, 0xAD), (0x601, 0x34), (0x602, 0x12)]

/-- The branch `BCC +16` (`90 10`) at `0x0600` with Carry set: the branch is not taken. -/
def bcc_carry_set : cpu := state_of 0 0 0 0xFD 0x01 0x600 [(0x600, 0x90), (0x601, 0x10)]

/-- A state about to fetch the given opcode byte at `0x0600`, with zero operands. -/
def at_opcode (opcode : Nat) : cpu := state_of 0 0 0 0xFD 0 0x600 [(0x600, opcode)]

/-- The instruction `JMP ($30FF)` (`6C FF 30`) at `0x0600`, with `0x40` at `0x30FF`, `0x80` at
`0x3000` and `0x50` at `0x3100`. -/
def jmp_indirect_30ff : cpu :=
  state_of 0 0 0 0xFD 0 0x600
    [(0x600, 0x6C), (0x601, 0xFF), (0x602, 0x30), (0x30FF, 0x40), (0x3000, 0x80), (0x3100, 0x50)]

/-- A state with non-zero registers, every flag set and the reset vector pointing elsewhere. -/
def used_state : cpu :=
  state_of 0x11 0x22 0x33 0x44 0xFF 0x1234 [(0xFFFC, 0xAA), (0xFFFD, 0xBB)]

/-- A state with `pc = 0x0601` whose operand byte there is `0x80`, with `reg_x = reg_y = 0x80`. -/
def zero_page_80_80 : cpu := state_of 0 0x80 0x80 0xFD 0 0x601 [(0x601, 0x80)]

/-- A three-byte instruction with the given opcode at `0x0600` whose operand is `0x0601`, the
address of its own operand. -/
def jump_to_operand (opcode : Nat) : cpu :=
  state_of 0 0 0 0xFD 0 0x600 [(0x600, opcode), (0x601, 0x01), (0x602, 0x06)]

/-- The instruction `JSR $1234` (`20 34 12`) at `0x01FC`, inside the stack page, with the stack
pointer at `0xFD`: the two bytes the push writes are the opcode byte and the low operand byte. -/
def jsr_in_stack : cpu :=
  state_of 0 0 0 0xFD 0 0x1FC [(0x1FC, 0x20), (0x1FD, 0x34), (0x1FE, 0x12)]

/-- The instruction `JSR $0610` (`20 10 06`) at `0x0600` with an RTS (`60`) at `0x0610`. -/
def jsr_0610 : cpu :=
  state_of 0 0 0 0xFD 0 0x600 [(0x600, 0x20), (0x601, 0x10), (0x602, 0x06), (0x610, 0x60)]

/-- The instruction `ASL $10` (`06 10`) at `0x0600` with the byte `d` at `0x0010`. -/
def asl_zero_page (d : Nat) : cpu :=
  state_of 0 0 0 0xFD 0 0x600 [(0x600, 0x06), (0x601, 0x10), (0x10, d)]

/-- The instruction `ASL A` (`0A`) at `0x0600` with the given accumulator and all flags clear. -/
def asl_accumulator (a : Nat) : cpu := state_of a 0 0 0xFD 0 0x600 [(0x600, 0x0A)]

/-- The instruction `TXS` (`9A`) at `0x0600` with the given `reg_x` and all flags clear. -/
def txs_input (x : Nat) : cpu := state_of 0 x 0 0xFD 0 0x600 [(0x600, 0x9A)]

/-- The instruction `SBC #m` (`E9 m`) at `0x0600` with the given accumulator and status. -/
def sbc_immediate (a m status : Nat) : cpu :=
  state_of a 0 0 0xFD status 0x600 [(0x600, 0xE9), (0x601, m)]

/-- The instruction `SBC #$20` (`E9 20`) at `0x0600` with accumulator `0x10` and Carry set:
a subtraction that borrows. -/
def sbc_borrow : cpu := state_of 0x10 0 0 0xFD 0x01 0x600 [(0x600, 0xE9), (0x601, 0x20)]

/-- The unlisted opcode byte `0x02` at `0x0600`, followed by the byte `0x22`, with accumulator
`0x10` and Carry clear. -/
def unlisted_02 : cpu := state_of 0x10 0 0 0xFD 0 0x600 [(0x600, 0x02), (0x601, 0x22)]

/-! ## Bytes, words and bits -/

theorem shl8_or (hi lo : Nat) (h : lo < 256) : (hi <<< 8) ||| lo = hi * 256 + lo := by
  have e := Nat.mul_add_lt_is_or (show lo < 2 ^ 8 from h) hi
  rw [Nat.shiftLeft_eq, Nat.mul_comm hi (2 ^ 8), ← e]

theorem and_ff (n : Nat) : n &&& 0xFF = n % 256 :=
  Nat.and_pow_two_sub_one_eq_mod n 8

theorem and_80 (n : Nat) : to_bool (n &&& 0x80) = n.testBit 7 := by
  unfold to_bool
  rw [show (0x80 : Nat) = 2 ^ 7 from rfl, Nat.and_two_pow]
  cases n.testBit 7 <;> simp

/-! ## The flag register -/

theorem flag_toInt_lt (f : flag) : f.toInt < 8 := by cases f <;> decide

theorem flag_toInt_inj (f g : flag) (h : f.toInt = g.toInt) : f = g := by
  cases f <;> cases g <;> first | rfl | (exfalso; revert h; decide)

theorem flag_mask (f : flag) : u8 (1 <<< f.toInt) = 2 ^ f.toInt := by cases f <;> decide

theorem status_bit_get_eq_testBit (s : cpu) (f : flag) :
    status_bit_get s f = s.status.testBit f.toInt := by
  unfold status_bit_get to_bool
  simp only [flag_mask, Nat.and_two_pow]
  cases s.status.testBit f.toInt <;> simp

theorem int_not_mask_testBit (f : flag) (i : Nat) :
    (int_not (2 ^ f.toInt)).testBit i = (decide (i < 32) && !decide (f.toInt = i)) := by
  have h : int_not (2 ^ f.toInt) = 2 ^ 32 - (2 ^ f.toInt + 1) := by
    unfold int_not; omega
  have hlt : 2 ^ f.toInt < 2 ^ 32 :=
    Nat.pow_lt_pow_right (by decide) (by have := flag_toInt_lt f; omega)
  rw [h, Nat.testBit_two_pow_sub_succ hlt, Nat.testBit_two_pow]

theorem status_bit_set_testBit (s : cpu) (f : flag) (v : Bool) (i : Nat) :
    (status_bit_set s f v).status.testBit i =
      (decide (i < 8) && (if i = f.toInt then v else s.status.testBit i)) := by
  unfold status_bit_set
  simp only [flag_mask]
  cases v
  · simp only [Bool.false_eq_true, if_false, u8]
    rw [show (256 : Nat) = 2 ^ 8 by rfl, Nat.testBit_mod_two_pow, Nat.testBit_and,
      int_not_mask_testBit]
    by_cases h8 : i < 8 <;> by_cases hi : i = f.toInt <;> simp [h8, hi]
    intro _; omega
  · simp only [if_true, u8]
    rw [show (256 : Nat) = 2 ^ 8 by rfl, Nat.testBit_mod_two_pow, Nat.testBit_or,
      Nat.testBit_two_pow]
    by_cases h8 : i < 8 <;> by_cases hi : i = f.toInt <;> simp [h8, hi]
    intro _; omega

theorem status_bit_get_set (s : cpu) (f g : flag) (v : Bool) :
    status_bit_get (status_bit_set s f v) g = if g = f then v else status_bit_get s g := by
  rw [status_bit_get_eq_testBit, status_bit_set_testBit, status_bit_get_eq_testBit]
  have h8 := flag_toInt_lt g
  by_cases h : g = f
  · subst h; simp [h8]
  · have : g.toInt ≠ f.toInt := fun e => h (flag_toInt_inj _ _ e)
    simp [h8, h, this]

theorem status_bit_set_frame (s : cpu) (f : flag) (v : Bool) :
    (status_bit_set s f v).reg_a = s.reg_a ∧ (status_bit_set s f v).reg_x = s.reg_x ∧
    (status_bit_set s f v).reg_y = s.reg_y ∧ (status_bit_set s f v).sp = s.sp ∧
    (status_bit_set s f v).pc = s.pc ∧ (status_bit_set s f v).memory = s.memory := by
  unfold status_bit_set; cases v <;> simp

@[simp] theorem status_bit_set_pc (s : cpu) (f : flag) (v : Bool) :
    (status_bit_set s f v).pc = s.pc := (status_bit_set_frame s f v).2.2.2.2.1
@[simp] theorem status_bit_set_reg_a (s : cpu) (f : flag) (v : Bool) :
    (status_bit_set s f v).reg_a = s.reg_a := (status_bit_set_frame s f v).1
@[simp] theorem status_bit_set_reg_x (s : cpu) (f : flag) (v : Bool) :
    (status_bit_set s f v).reg_x = s.reg_x := (status_bit_set_frame s f v).2.1
@[simp] theorem status_bit_set_reg_y (s : cpu) (f : flag) (v : Bool) :
    (status_bit_set s f v).reg_y = s.reg_y := (status_bit_set_frame s f v).2.2.1
@[simp] theorem status_bit_set_sp (s : cpu) (f : flag) (v : Bool) :
    (status_bit_set s f v).sp = s.sp := (status_bit_set_frame s f v).2.2.2.1
@[simp] theorem status_bit_set_memory (s : cpu) (f : flag) (v : Bool) :
    (status_bit_set s f v).memory = s.memory := (status_bit_set_frame s f v).2.2.2.2.2

@[simp] theorem uznf_pc (s : cpu) (r : Nat) : (update_zero_negative_flag s r).pc = s.pc := by
  simp [update_zero_negative_flag]
@[simp] theorem uznf_reg_a (s : cpu) (r : Nat) :
    (update_zero_negative_flag s r).reg_a = s.reg_a := by simp [update_zero_negative_flag]
@[simp] theorem uznf_reg_x (s : cpu) (r : Nat) :
    (update_zero_negative_flag s r).reg_x = s.reg_x := by simp [update_zero_negative_flag]
@[simp] theorem uznf_reg_y (s : cpu) (r : Nat) :
    (update_zero_negative_flag s r).reg_y = s.reg_y := by simp [update_zero_negative_flag]
@[simp] theorem uznf_sp (s : cpu) (r : Nat) : (update_zero_negative_flag s r).sp = s.sp := by
  simp [update_zero_negative_flag]
@[simp] theorem uznf_memory (s : cpu) (r : Nat) :
    (update_zero_negative_flag s r).memory = s.memory := by simp [update_zero_negative_flag]

theorem uznf_testBit (s : cpu) (r i : Nat) :
    (update_zero_negative_flag s r).status.testBit i =
      (decide (i < 8) && (if i = 7 then r.testBit 7
        else if i = 1 then decide (r = 0) else s.status.testBit i)) := by
  unfold update_zero_negative_flag
  rw [status_bit_set_testBit, status_bit_set_testBit, and_80]
  simp only [flag.toInt]
  by_cases h8 : i < 8 <;> by_cases h7 : i = 7 <;> by_cases h1 : i = 1 <;> simp [h8, h7, h1]

/-! ## The opcode table -/

set_option maxRecDepth 100000 in
theorem opcodes_init_keys : ∀ p ∈ opcodes_init, p.1 < 255 := by decide

set_option maxRecDepth 100000 in
theorem opcodes_addr_ok : ∀ i < 255, addr_ok (opcodes_elem i) = true := by decide

set_option maxRecDepth 100000 in
theorem opcodes_brk : ∀ i < 255, ((opcodes_elem i).opcode = .BRK ↔ i = 0) := by decide

set_option maxRecDepth 100000 in
theorem opcodes_branch : ∀ i < 255,
    (branch_condition (opcodes_elem i).opcode cpu_new).isSome = true →
      (opcodes_elem i).bytes = 2 ∧ (opcodes_elem i).mode = .Relative := by decide

theorem opcodes_of_lt (i : Nat) (h : i < 255) : opcodes i = some (opcodes_elem i) := by
  simp [opcodes, opcodes_extent, h]

theorem opcodes_listed (i : Nat) (info : opcode_info)
    (h : opcodes_init.lookup i = some info) : i < 255 ∧ opcodes_elem i = info := by
  constructor
  · by_contra hge
    have hnone : opcodes_init.lookup i = none := by
      rw [List.lookup_eq_none_iff]
      intro p hp
      have := opcodes_init_keys p hp
      simp only [bne_iff_ne, ne_eq]
      omega
    rw [hnone] at h
    exact Option.noConfusion h
  · simp [opcodes_elem, h]

/-! ## The switch -/

@[simp] theorem mem_write_pc (s : cpu) (a v : Nat) : (mem_write s a v).pc = s.pc := rfl
@[simp] theorem stack_push_pc (s : cpu) (d : Nat) : (stack_push s d).pc = s.pc := rfl
@[simp] theorem stack_pop_pc (s : cpu) : (stack_pop s).2.pc = s.pc := rfl

theorem get_addr_isSome (s : cpu) (mode : AddressingMode) (h : mode ≠ .Implied) :
    ∃ a, get_addr s mode = some a := by
  cases mode <;> first | exact absurd rfl h | exact ⟨_, rfl⟩

theorem with_addr_some (s : cpu) (mode : AddressingMode) (body : Nat → cpu) (a : Nat)
    (h : get_addr s mode = some a) : with_addr s mode body = .done (body a) := by
  simp only [with_addr, h]

theorem run_switch_frame_pc (info : opcode_info) (s : cpu)
    (hk : info.opcode ∉ pc_assigning) (hok : addr_ok info = true) :
    ∃ s2, run_switch info s = .done s2 ∧ s2.pc = s.pc := by
  rcases info with ⟨op, b, c, m⟩
  by_cases hm : m = .Implied
  · subst hm
    cases op <;> simp [addr_ok, no_get_addr, pc_assigning] at hok hk <;>
      simp [run_switch]
  · obtain ⟨a, ha⟩ := get_addr_isSome s m hm
    cases op <;> simp [pc_assigning] at hk <;>
      simp [run_switch, with_addr_some _ _ _ a ha]

theorem run_switch_branch_not_taken (info : opcode_info) (s : cpu)
    (h : branch_condition info.opcode s = some false) : run_switch info s = .done s := by
  rcases info with ⟨op, b, c, m⟩
  cases op <;> simp [branch_condition] at h <;> simp [run_switch, h]

theorem run_switch_branch_taken (info : opcode_info) (s : cpu)
    (h : branch_condition info.opcode s = some true) :
    run_switch info s = branch_taken s info.mode := by
  rcases info with ⟨op, b, c, m⟩
  cases op <;> simp [branch_condition] at h <;> simp [run_switch, h]

theorem run_switch_ret (info : opcode_info) (s s' : cpu) :
    run_switch info s = .ret s' ↔ info.opcode = .BRK ∧ s' = s := by
  rcases info with ⟨op, b, c, m⟩
  cases hg : get_addr s m <;> cases op <;> first
    | (simp [run_switch, with_addr, branch_taken, hg]; done)
    | (simp [run_switch]; exact eq_comm)
    | (simp [run_switch, with_addr, branch_taken, hg]; split <;> simp)

theorem run_switch_not_thrown (info : opcode_info) (s : cpu) (hok : addr_ok info = true) :
    run_switch info s ≠ .thrown := by
  rcases info with ⟨op, b, c, m⟩
  by_cases hm : m = .Implied
  · subst hm
    cases op <;> simp [addr_ok, no_get_addr] at hok <;> simp [run_switch]
  · obtain ⟨a, ha⟩ := get_addr_isSome s m hm
    cases op <;> simp [run_switch, with_addr, branch_taken, ha] <;>
      (try (split <;> simp))

/-! ## The loop body -/

theorem run_step_done (s : cpu) (info : opcode_info) (s2 : cpu)
    (hinfo : opcodes (s.memory s.pc) = some info)
    (hsw : run_switch info { s with pc := u16 (s.pc + 1) } = .done s2) :
    run_step s = .next (if u16 (s.pc + 1) = s2.pc then
      { s2 with pc := u16i ((s2.pc : Int) + ((info.bytes : Int) - 1)) } else s2) := by
  unfold run_step
  simp only [hinfo, hsw]
  split_ifs <;> rfl

theorem adc_switch (info : opcode_info) (s : cpu) (addr : Nat)
    (hop : info.opcode = .ADC) (haddr : get_addr s info.mode = some addr) :
    run_switch info s = .done
      (update_zero_negative_flag
        { (status_bit_set (status_bit_set s .CarryFlag
              (decide (u16 (s.reg_a + mem_read s addr + of_bool (status_bit_get s .CarryFlag)) > 0xff)))
            .OverflowFlag
            (to_bool (overflow_arg
              (u16 (s.reg_a + mem_read s addr + of_bool (status_bit_get s .CarryFlag)))
              (mem_read s addr) s.reg_a))) with
          reg_a := u8 (u16 (s.reg_a + mem_read s addr + of_bool (status_bit_get s .CarryFlag))
            &&& 0xff) }
        (u8 (u16 (s.reg_a + mem_read s addr + of_bool (status_bit_get s .CarryFlag)) &&& 0xff))) := by
  unfold run_switch
  simp only [hop, with_addr, haddr, status_bit_set_reg_a]

theorem of_bool_le (b : Bool) : of_bool b ≤ 1 := by cases b <;> decide

theorem branch_condition_pc (op : OpcodeType) (s : cpu) (p : Nat) :
    branch_condition op { s with pc := p } = branch_condition op s := by
  cases op <;> rfl

theorem opcodes_of_listed (i : Nat) (info : opcode_info)
    (h : opcodes_init.lookup i = some info) : opcodes i = some info := by
  obtain ⟨hlt, he⟩ := opcodes_listed i info h
  rw [opcodes_of_lt i hlt, he]

theorem addr_ok_of_listed (i : Nat) (info : opcode_info)
    (h : opcodes_init.lookup i = some info) : addr_ok info = true := by
  obtain ⟨hlt, he⟩ := opcodes_listed i info h
  rw [← he]; exact opcodes_addr_ok i hlt

theorem run_step_returned (u s' : cpu) (h : run_step u = .returned s') :
    u.memory u.pc = 0x00 := by
  unfold run_step at h
  by_cases hlt : u.memory u.pc < 255
  · simp only [opcodes_of_lt _ hlt] at h
    cases hsw : run_switch (opcodes_elem (u.memory u.pc)) { u with pc := u16 (u.pc + 1) } with
    | done s2 => simp only [hsw] at h; split at h <;> exact run_exit.noConfusion h
    | thrown => simp only [hsw] at h; exact run_exit.noConfusion h
    | ret s2 => exact (opcodes_brk _ hlt).mp ((run_switch_ret _ _ _).mp hsw).1
  · have hnone : opcodes (u.memory u.pc) = none := by simp [opcodes, opcodes_extent, hlt]
    simp only [hnone] at h
    exact run_exit.noConfusion h

theorem run_step_brk (s : cpu) (h : s.memory s.pc = 0x00) :
    run_step s = .returned { s with pc := u16 (s.pc + 1) } := by
  have hsw : run_switch (opcodes_elem 0) { s with pc := u16 (s.pc + 1) } =
      .ret { s with pc := u16 (s.pc + 1) } :=
    (run_switch_ret _ _ _).mpr ⟨(opcodes_brk 0 (by decide)).mpr rfl, rfl⟩
  unfold run_step
  simp only [h, opcodes_of_lt 0 (by decide), hsw]

theorem run_step_continues (s : cpu) (hlt : s.memory s.pc < 255) (hne : s.memory s.pc ≠ 0x00) :
    ∃ s', run_step s = .next s' := by
  unfold run_step
  simp only [opcodes_of_lt _ hlt]
  cases hsw : run_switch (opcodes_elem (s.memory s.pc)) { s with pc := u16 (s.pc + 1) } with
  | done s2 => simp only []; split <;> exact ⟨_, rfl⟩
  | thrown => exact absurd hsw (run_switch_not_thrown _ _ (opcodes_addr_ok _ hlt))
  | ret s2 => exact absurd ((opcodes_brk _ hlt).mp ((run_switch_ret _ _ _).mp hsw).1) hne

theorem run_step_not_thrown (s : cpu) : run_step s ≠ .thrown := by
  intro h
  unfold run_step at h
  by_cases hlt : s.memory s.pc < 255
  · simp only [opcodes_of_lt _ hlt] at h
    cases hsw : run_switch (opcodes_elem (s.memory s.pc)) { s with pc := u16 (s.pc + 1) } with
    | done s2 => simp only [hsw] at h; split at h <;> exact run_exit.noConfusion h
    | thrown => exact run_switch_not_thrown _ _ (opcodes_addr_ok _ hlt) hsw
    | ret s2 => simp only [hsw] at h; exact run_exit.noConfusion h
  · have hnone : opcodes (s.memory s.pc) = none := by simp [opcodes, opcodes_extent, hlt]
    simp only [hnone] at h
    exact run_exit.noConfusion h

theorem run_not_thrown (callback : Option (cpu → cpu)) (fuel : Nat) (t : cpu) :
    run callback fuel t ≠ .thrown := by
  induction fuel generalizing t with
  | zero => intro h; exact run_exit.noConfusion h
  | succ n ih =>
    intro h
    simp only [run] at h
    cases hst : run_step (run_callback callback t) with
    | next s1 => rw [hst] at h; exact ih s1 h
    | returned s1 => rw [hst] at h; exact run_exit.noConfusion h
    | thrown => exact run_step_not_thrown _ hst
    | outside_table => rw [hst] at h; exact run_exit.noConfusion h

theorem run_succ_of_next (callback : Option (cpu → cpu)) (k : Nat) (t s1 : cpu)
    (h : run_step (run_callback callback t) = .next s1) :
    run callback (k + 1) t = run callback k s1 := by
  simp only [run, h]

theorem run_returned_trace (callback : Option (cpu → cpu)) (fuel : Nat) (t s' : cpu)
    (h : run callback fuel t = .returned s') :
    ∃ k u, k < fuel ∧ run callback k t = .next u ∧
      (run_callback callback u).memory (run_callback callback u).pc = 0x00 ∧
      run_step (run_callback callback u) = .returned s' := by
  induction fuel generalizing t with
  | zero => exact run_exit.noConfusion h
  | succ n ih =>
    simp only [run] at h
    cases hst : run_step (run_callback callback t) with
    | next s1 =>
      rw [hst] at h
      obtain ⟨k, u, hk, hrun, hbyte, hret⟩ := ih s1 h
      exact ⟨k + 1, u, by omega, (run_succ_of_next callback k t s1 hst).trans hrun, hbyte, hret⟩
    | returned s1 =>
      rw [hst] at h
      have e : s1 = s' := by injection h
      subst e
      exact ⟨0, t, by omega, rfl, run_step_returned _ _ hst, hst⟩
    | thrown => rw [hst] at h; exact run_exit.noConfusion h
    | outside_table => rw [hst] at h; exact run_exit.noConfusion h

theorem run_returned (callback : Option (cpu → cpu)) (fuel : Nat) (t s' : cpu)
    (h : run callback fuel t = .returned s') :
    ∃ u, u.memory u.pc = 0x00 ∧ run_step u = .returned s' := by
  induction fuel generalizing t with
  | zero => exact run_exit.noConfusion h
  | succ n ih =>
    simp only [run] at h
    cases hst : run_step (run_callback callback t) with
    | next s1 => rw [hst] at h; exact ih s1 h
    | returned s1 =>
      rw [hst] at h
      have e : s1 = s' := by injection h
      subst e
      exact ⟨_, run_step_returned _ _ hst, hst⟩
    | thrown => rw [hst] at h; exact run_exit.noConfusion h
    | outside_table => rw [hst] at h; exact run_exit.noConfusion h

/-! ## Loading, words in memory, taken branches -/

theorem opcodes_A9 : opcodes 0xA9 = some ⟨.LDA, 2, 2, .Immediate⟩ := by decide
theorem opcodes_AA : opcodes 0xAA = some ⟨.TAX, 1, 2, .Implied⟩ := by decide
theorem opcodes_E8 : opcodes 0xE8 = some ⟨.INX, 1, 2, .Implied⟩ := by decide
theorem opcodes_00 : opcodes 0x00 = some ⟨.BRK, 1, 1, .Implied⟩ := by decide

theorem load_memory (s : cpu) (program : List Nat) (a : Nat) :
    (load s program).memory a =
      if a = 0xFFFD then 0x06 else if a = 0xFFFC then 0x00
      else if 0x600 ≤ a ∧ a < 0x600 + program.length then program.getD (a - 0x600) 0
      else s.memory a := by
  simp [load, mem_write_uint16, mem_write, u8, u16, and_ff]

theorem reset_load (s : cpu) (program : List Nat) :
    reset (load s program) =
      { reg_a := 0, reg_x := 0, reg_y := 0, sp := 0xFD, status := 0b100100, pc := 0x600,
        memory := (load s program).memory } := by
  simp [reset, mem_read_uint16, mem_read, load_memory, u16, STACK_RESET]

theorem opcodes_6C : opcodes 0x6C = some ⟨.JMP_IND, 3, 5, .Immediate⟩ := by decide

theorem or_shl8 (lo hi : Nat) (h : lo < 256) : lo ||| (hi <<< 8) = hi * 256 + lo := by
  rw [Nat.or_comm, shl8_or hi lo h]

theorem word_of_bytes (lo hi : Nat) (hlo : lo < 256) (hhi : hi < 256) :
    u16 (u16 (hi <<< 8) ||| lo) = lo ||| (hi <<< 8) := by
  have e : hi <<< 8 = hi * 256 := by rw [Nat.shiftLeft_eq]
  rw [or_shl8 lo hi hlo]
  have h1 : u16 (hi <<< 8) = hi <<< 8 := by rw [e]; unfold u16; omega
  rw [h1, shl8_or hi lo hlo]
  unfold u16; omega

theorem word_of_bytes_int (lo hi : Nat) (hlo : lo < 256) (hhi : hi < 256) :
    u16 ((hi <<< 8) ||| lo) = lo ||| (hi <<< 8) := by
  rw [or_shl8 lo hi hlo, shl8_or hi lo hlo]
  unfold u16; omega

theorem mem_read_uint16_eq (s : cpu) (a : Nat) (hmem : ∀ a, s.memory a < 256) :
    mem_read_uint16 s a = s.memory a ||| (s.memory (u16 (a + 1)) <<< 8) := by
  unfold mem_read_uint16 mem_read
  exact word_of_bytes _ _ (hmem _) (hmem _)

theorem memory_of_lt (bytes : List (Nat × Nat)) (h : ∀ p ∈ bytes, p.2 < 256) (a : Nat) :
    memory_of bytes a < 256 := by
  unfold memory_of
  induction bytes with
  | nil => simp
  | cons p ps ih =>
    rw [List.lookup_cons]
    split
    · exact h p (List.mem_cons_self _ _)
    · exact ih (fun q hq => h q (List.mem_cons_of_mem _ hq))

theorem run_step_branch_taken (s : cpu) (info : opcode_info)
    (hlisted : opcodes_init.lookup (s.memory s.pc) = some info)
    (hcond : branch_condition info.opcode s = some true)
    (ho : s.memory (u16 (s.pc + 1)) < 256) :
    run_step s = .next { s with pc := (
      if s.memory (u16 (s.pc + 1)) = 0xFF then u16 (s.pc + 2)
      else u16i ((u16 (s.pc + 1) : Int) + int8 (s.memory (u16 (s.pc + 1))) + 1)) } := by
  have hinfo := opcodes_of_listed _ info hlisted
  obtain ⟨hlt, he⟩ := opcodes_listed _ info hlisted
  have hs : (branch_condition info.opcode cpu_new).isSome = true := by
    revert hcond; cases info.opcode <;> simp [branch_condition]
  have htab := opcodes_branch _ hlt
  rw [he] at htab
  obtain ⟨hbytes, hmode⟩ := htab hs
  have hsw := run_switch_branch_taken info { s with pc := u16 (s.pc + 1) }
    (by rw [branch_condition_pc]; exact hcond)
  simp only [branch_taken, with_addr, hmode, get_addr, mem_read] at hsw
  rw [run_step_done s info _ hinfo hsw]
  simp only [hbytes]
  generalize s.memory (u16 (s.pc + 1)) = o at ho ⊢
  by_cases h : o = 0xFF
  · subst h
    have e : u16i ((u16 (s.pc + 1) : Int) + (int8 0xFF + 1)) = u16 (s.pc + 1) := by
      unfold u16i u16 int8; simp; omega
    simp only [e, if_true]
    congr 2
    unfold u16i u16; omega
  · have e : u16 (s.pc + 1) ≠ u16i ((u16 (s.pc + 1) : Int) + (int8 o + 1)) := by
      unfold u16i u16 int8; split <;> omega
    simp only [if_neg e, if_neg h]
    congr 2
    unfold u16i u16 int8; split <;> omega

/-! ## Checked memory, calls and returns, transfers, subtraction -/

theorem mem_read_checked_of_lt (s : cpu) (a : Nat) (h : a < 0xFFFF) :
    mem_read_checked s a = some (mem_read s a) := by
  simp [mem_read_checked, memory_extent, mem_read, h]

theorem mem_write_checked_of_lt (s : cpu) (a v : Nat) (h : a < 0xFFFF) :
    mem_write_checked s a v = some (mem_write s a v) := by
  simp [mem_write_checked, memory_extent, h]

theorem opcodes_20 : opcodes 0x20 = some ⟨.JSR, 3, 6, .Immediate⟩ := by decide
theorem opcodes_60 : opcodes 0x60 = some ⟨.RTS, 1, 6, .Implied⟩ := by decide
theorem opcodes_4C : opcodes 0x4C = some ⟨.JMP_ABS, 3, 3, .Immediate⟩ := by decide

theorem run_step_jmp_abs (s : cpu) (t : Nat) (hmem : ∀ a, s.memory a < 256)
    (hop : s.memory s.pc = 0x4C)
    (ht : t = s.memory (u16 (s.pc + 1)) ||| (s.memory (u16 (s.pc + 2)) <<< 8)) :
    run_step s = .next { s with pc := (if t = u16 (s.pc + 1) then u16 (t + 2) else t) } := by
  have hqr : mem_read_uint16 { s with pc := u16 (s.pc + 1) } (u16 (s.pc + 1)) = t := by
    have : u16 (u16 (s.pc + 1) + 1) = u16 (s.pc + 2) := by unfold u16; omega
    rw [mem_read_uint16_eq { s with pc := u16 (s.pc + 1) } _ hmem, ht, this]
  have hsw : run_switch ⟨.JMP_ABS, 3, 3, .Immediate⟩ { s with pc := u16 (s.pc + 1) } =
      .done { s with pc := t } := by
    simp only [run_switch, with_addr, get_addr, hqr]
  rw [run_step_done s _ _ (by rw [hop]; exact opcodes_4C) hsw]
  by_cases h : t = u16 (s.pc + 1)
  · have e : u16i ((t : Int) + (((3 : Nat) : Int) - 1)) = u16 (t + 2) := by
      unfold u16i u16; omega
    simp only [h, if_true] at e ⊢
    rw [e]
  · simp only [if_neg (Ne.symm h), if_neg h]

theorem stack_push_uint16_eq (s : cpu) (w : Nat) (hsp : s.sp < 256) (hw : w < 65536) :
    stack_push_uint16 s w =
      { s with
        sp := (s.sp + 254) % 256
        memory := fun a =>
          (if a = STACK + (s.sp + 255) % 256 then w % 256
           else if a = STACK + s.sp then w / 256 else s.memory a) } := by
  have e1 : u16 (STACK + s.sp) = STACK + s.sp := by unfold u16 STACK; omega
  have e2 : u16 (STACK + u8i ((s.sp : Int) - 1)) = STACK + (s.sp + 255) % 256 := by
    unfold u16 STACK u8i; omega
  have e3 : u8i (((u8i ((s.sp : Int) - 1) : Nat) : Int) - 1) = (s.sp + 254) % 256 := by
    unfold u8i; omega
  have e4 : u8 (w >>> 8) = w / 256 := by
    rw [Nat.shiftRight_eq_div_pow]; unfold u8; omega
  have e5 : u8 (w &&& 0xff) = w % 256 := by
    rw [and_ff]; unfold u8; omega
  simp only [stack_push_uint16, stack_push, mem_write, e1, e2, e3, e4, e5]

theorem stack_pop_uint16_eq (s : cpu)
    (hlo : s.memory (STACK + (s.sp + 1) % 256) < 256)
    (hhi : s.memory (STACK + (s.sp + 2) % 256) < 256) :
    stack_pop_uint16 s =
      (s.memory (STACK + (s.sp + 1) % 256) + 256 * s.memory (STACK + (s.sp + 2) % 256),
        { s with sp := (s.sp + 2) % 256 }) := by
  have e1 : u16 (STACK + u8 (s.sp + 1)) = STACK + (s.sp + 1) % 256 := by
    unfold u16 STACK u8; omega
  have e2 : u8 (u8 (s.sp + 1) + 1) = (s.sp + 2) % 256 := by unfold u8; omega
  have e3 : u16 (STACK + (s.sp + 2) % 256) = STACK + (s.sp + 2) % 256 := by
    unfold u16 STACK; omega
  simp only [stack_pop_uint16, stack_pop, mem_read, e1, e2, e3]
  rw [shl8_or _ _ hlo]
  congr 1
  unfold u16; omega

theorem opcodes_9A : opcodes 0x9A = some ⟨.TXS, 1, 2, .Implied⟩ := by decide

theorem status_bit_get_congr (s t : cpu) (h : s.status = t.status) (g : flag) :
    status_bit_get s g = status_bit_get t g := by
  unfold status_bit_get; rw [h]

theorem uznf_get (s : cpu) (r : Nat) (g : flag) :
    status_bit_get (update_zero_negative_flag s r) g =
      if g = .NegativeFlag then r.testBit 7
      else if g = .ZeroFlag then decide (r = 0) else status_bit_get s g := by
  unfold update_zero_negative_flag
  rw [status_bit_get_set, status_bit_get_set, and_80]

theorem pc_check_get (s2 : cpu) (c : Prop) [Decidable c] (p : Nat) (g : flag) :
    status_bit_get (if c then { s2 with pc := p } else s2) g = status_bit_get s2 g := by
  split <;> rfl

theorem pc_check_sp (s2 : cpu) (c : Prop) [Decidable c] (p : Nat) :
    (if c then { s2 with pc := p } else s2).sp = s2.sp := by
  split <;> rfl

theorem sbc_switch (info : opcode_info) (s : cpu) (addr : Nat)
    (hop : info.opcode = .SBC) (haddr : get_addr s info.mode = some addr) :
    run_switch info s = .done
      (update_zero_negative_flag
        { (status_bit_set (status_bit_set s .CarryFlag
              (decide (u16 (s.reg_a + u8i (-((mem_read s addr : Int) + 1)) +
                of_bool (status_bit_get s .CarryFlag)) > 0xff)))
            .OverflowFlag
            (to_bool (overflow_arg
              (u16 (s.reg_a + u8i (-((mem_read s addr : Int) + 1)) +
                of_bool (status_bit_get s .CarryFlag)))
              (u8i (-((mem_read s addr : Int) + 1))) s.reg_a))) with
          reg_a := u8 (u16 (s.reg_a + u8i (-((mem_read s addr : Int) + 1)) +
            of_bool (status_bit_get s .CarryFlag)) &&& 0xff) }
        (u8 (u16 (s.reg_a + u8i (-((mem_read s addr : Int) + 1)) +
          of_bool (status_bit_get s .CarryFlag)) &&& 0xff))) := by
  unfold run_switch
  simp only [hop, with_addr, haddr, status_bit_set_reg_a]

/-! ## The exception of `get_addr`, unlisted opcodes -/

theorem get_addr_none_iff (s : cpu) (mode : AddressingMode) :
    get_addr s mode = none ↔ mode = .Implied := by
  cases mode <;> simp [get_addr]

theorem run_switch_thrown_iff (info : opcode_info) (s : cpu) :
    run_switch info s = .thrown ↔
      info.mode = .Implied ∧ evaluates_get_addr info.opcode s = true := by
  rcases info with ⟨op, b, c, m⟩
  by_cases hm : m = .Implied
  · subst hm
    cases op <;>
      simp [run_switch, with_addr, branch_taken, get_addr, evaluates_get_addr,
        branch_condition, no_get_addr]
  · obtain ⟨a, ha⟩ := get_addr_isSome s m hm
    cases op <;> simp [run_switch, with_addr, branch_taken, ha, hm] <;>
      (try (split <;> simp))

theorem opcodes_unlisted (i : Nat) (hlt : i < 255) (h : opcodes_init.lookup i = none) :
    opcodes i = some ⟨.ADC, 0, 0, .Immediate⟩ := by
  rw [opcodes_of_lt i hlt]
  simp [opcodes_elem, h, opcode_info_zero]

theorem reset_pc (t : cpu) : (reset t).pc = mem_read_uint16 t 0xFFFC := rfl

theorem reset_pc_bytes (t : cpu) (hmem : ∀ a, t.memory a < 256) :
    (reset t).pc = t.memory 0xFFFC ||| (t.memory 0xFFFD <<< 8) := by
  rw [reset_pc, mem_read_uint16_eq t _ hmem]
  rfl

theorem mem_read_uint16_load (s : cpu) (program : List Nat) :
    mem_read_uint16 (load s program) 0xFFFC = 0x0600 := by
  simp [mem_read_uint16, mem_read, load_memory, u16]

theorem run_step_txs (s : cpu) (hop : s.memory s.pc = 0x9A) :
    ∃ s', run_step s = .next s' ∧ s'.sp = s.reg_x ∧
      status_bit_get s' .ZeroFlag = decide (s.reg_x = 0) ∧
      status_bit_get s' .NegativeFlag = s.reg_x.testBit 7 ∧
      (∀ g : flag, g ≠ .ZeroFlag → g ≠ .NegativeFlag →
        status_bit_get s' g = status_bit_get s g) := by
  have hsw : run_switch ⟨.TXS, 1, 2, .Implied⟩ { s with pc := u16 (s.pc + 1) } = .done
      (update_zero_negative_flag { s with pc := u16 (s.pc + 1), sp := s.reg_x } s.reg_x) := rfl
  refine ⟨_, run_step_done s _ _ (by rw [hop]; exact opcodes_9A) hsw, ?_⟩
  simp only [pc_check_get, pc_check_sp]
  simp only [uznf_sp, uznf_get]
  refine ⟨trivial, by simp, by simp, ?_⟩
  intro g hz hn
  simp only [if_neg hz, if_neg hn]
  rfl

/-! ## Claims -/

/-- C1 at its two vectors: with `A = 0x50, M = 0x50, c = 0` (result `0xA0`) and with
`A = 0xD0, M = 0x90, c = 0` (result `0x60`) the value `(R ^ M) & (R ^ A) & 0x80` is non-zero, and
ADC leaves the Overflow flag clear. -/
theorem adc_overflow_flag_clear_at_vectors :
    (∃ s', run_step adc_50_50 = .next s' ∧ s'.reg_a = 0xA0 ∧
      status_bit_get s' .OverflowFlag = false ∧
      (0xA0 ^^^ 0x50) &&& (0xA0 ^^^ 0x50) &&& 0x80 ≠ 0) ∧
    (∃ s', run_step adc_d0_90 = .next s' ∧ s'.reg_a = 0x60 ∧
      status_bit_get s' .OverflowFlag = false ∧
      (0x60 ^^^ 0x90) &&& (0x60 ^^^ 0xD0) &&& 0x80 ≠ 0) :=
  ⟨⟨_, rfl, by decide, by decide, by decide⟩, ⟨_, rfl, by decide, by decide, by decide⟩⟩

/-- C2: for every accumulator value `A`, operand byte `M` and incoming Carry `c`, a pass of the
loop that executes ADC leaves the accumulator equal to `(A + M + c) mod 256`, sets Carry iff
`A + M + c > 255`, sets Zero iff the new accumulator is 0 and sets Negative iff bit 7 of the new
accumulator is set. -/
theorem adc_accumulator_carry_zero_negative (s : cpu) (info : opcode_info) (addr : Nat)
    (hinfo : opcodes (s.memory s.pc) = some info) (hop : info.opcode = .ADC)
    (haddr : get_addr { s with pc := u16 (s.pc + 1) } info.mode = some addr)
    (hA : s.reg_a < 256) (hM : s.memory addr < 256) :
    ∃ s', run_step s = .next s' ∧
      s'.reg_a = (s.reg_a + s.memory addr + of_bool (status_bit_get s .CarryFlag)) % 256 ∧
      status_bit_get s' .CarryFlag =
        decide (s.reg_a + s.memory addr + of_bool (status_bit_get s .CarryFlag) > 255) ∧
      status_bit_get s' .ZeroFlag = decide (s'.reg_a = 0) ∧
      status_bit_get s' .NegativeFlag = s'.reg_a.testBit 7 := by
  have hc := of_bool_le (s.status.testBit 0)
  refine ⟨_, run_step_done s info _ hinfo (adc_switch info _ addr hop haddr), ?_⟩
  simp only [uznf_pc, status_bit_set_pc, if_true, status_bit_get_eq_testBit, flag.toInt,
    uznf_reg_a, uznf_testBit, status_bit_set_testBit, mem_read, and_ff, u8, u16]
  generalize of_bool (s.status.testBit 0) = c at hc ⊢
  refine ⟨by omega, ?_, ?_, ?_⟩
  · simp only [Nat.reduceLT, decide_True, Bool.true_and, OfNat.zero_ne_ofNat, if_false,
      OfNat.ofNat_ne_one]
    exact decide_eq_decide.mpr (by omega)
  · simp
  · simp

/-- C2 at `A = 0x50, M = 0x50, c = 0` (accumulator `0xA0`, Carry clear, Negative set) and at
`A = 0xD0, M = 0x90, c = 0` (accumulator `0x60`, Carry set). -/
theorem adc_accumulator_carry_zero_negative_witness :
    opcodes (adc_50_50.memory adc_50_50.pc) = some ⟨.ADC, 2, 2, .Immediate⟩ ∧
    opcodes (adc_d0_90.memory adc_d0_90.pc) = some ⟨.ADC, 2, 2, .Immediate⟩ ∧
    (⟨.ADC, 2, 2, .Immediate⟩ : opcode_info).opcode = .ADC ∧
    get_addr { adc_50_50 with pc := u16 (adc_50_50.pc + 1) }
      (⟨.ADC, 2, 2, .Immediate⟩ : opcode_info).mode = some 0x601 ∧
    get_addr { adc_d0_90 with pc := u16 (adc_d0_90.pc + 1) }
      (⟨.ADC, 2, 2, .Immediate⟩ : opcode_info).mode = some 0x601 ∧
    adc_50_50.reg_a < 256 ∧ adc_50_50.memory 0x601 < 256 ∧
    adc_d0_90.reg_a < 256 ∧ adc_d0_90.memory 0x601 < 256 ∧
    (∃ s', run_step adc_50_50 = .next s' ∧ s'.reg_a = 0xA0 ∧
      status_bit_get s' .CarryFlag = false ∧ status_bit_get s' .ZeroFlag = false ∧
      status_bit_get s' .NegativeFlag = true) ∧
    (∃ s', run_step adc_d0_90 = .next s' ∧ s'.reg_a = 0x60 ∧
      status_bit_get s' .CarryFlag = true ∧ status_bit_get s' .ZeroFlag = false ∧
      status_bit_get s' .NegativeFlag = false) := by
  refine ⟨by decide, by decide, rfl, by decide, by decide, by decide, by decide, by decide,
    by decide, ?_, ?_⟩
  · obtain ⟨s', h, ha, hc, hz, hn⟩ :=
      adc_accumulator_carry_zero_negative adc_50_50 ⟨.ADC, 2, 2, .Immediate⟩ 0x601
        (by decide) rfl (by decide) (by decide) (by decide)
    have ha' : s'.reg_a = 0xA0 := ha.trans (by decide)
    refine ⟨s', h, ha', hc.trans (by decide), ?_, ?_⟩
    · rw [hz, ha']; decide
    · rw [hn, ha']; decide
  · obtain ⟨s', h, ha, hc, hz, hn⟩ :=
      adc_accumulator_carry_zero_negative adc_d0_90 ⟨.ADC, 2, 2, .Immediate⟩ 0x601
        (by decide) rfl (by decide) (by decide) (by decide)
    have ha' : s'.reg_a = 0x60 := ha.trans (by decide)
    refine ⟨s', h, ha', hc.trans (by decide), ?_, ?_⟩
    · rw [hz, ha']; decide
    · rw [hn, ha']; decide

/-- C3 at the offset byte `0xFF`: each of the eight branch opcodes, fetched at `0x0600` with its
condition flag in the taken state, ends the pass with `PC = 0x0602`, while
`((p + 1) + s(o) + 1) mod 65536` is `0x0601`. -/
theorem branch_offset_ff_pc :
    u16i ((0x600 + 1 : Int) + int8 0xFF + 1) = 0x601 ∧
    (∃ s', run_step (branch_ff 0x90 0x00) = .next s' ∧ s'.pc = 0x602) ∧
    (∃ s', run_step (branch_ff 0xB0 0x01) = .next s' ∧ s'.pc = 0x602) ∧
    (∃ s', run_step (branch_ff 0xF0 0x02) = .next s' ∧ s'.pc = 0x602) ∧
    (∃ s', run_step (branch_ff 0x30 0x80) = .next s' ∧ s'.pc = 0x602) ∧
    (∃ s', run_step (branch_ff 0xD0 0x00) = .next s' ∧ s'.pc = 0x602) ∧
    (∃ s', run_step (branch_ff 0x10 0x00) = .next s' ∧ s'.pc = 0x602) ∧
    (∃ s', run_step (branch_ff 0x50 0x00) = .next s' ∧ s'.pc = 0x602) ∧
    (∃ s', run_step (branch_ff 0x70 0x40) = .next s' ∧ s'.pc = 0x602) :=
  ⟨by decide, ⟨_, rfl, by decide⟩, ⟨_, rfl, by decide⟩, ⟨_, rfl, by decide⟩,
    ⟨_, rfl, by decide⟩, ⟨_, rfl, by decide⟩, ⟨_, rfl, by decide⟩, ⟨_, rfl, by decide⟩,
    ⟨_, rfl, by decide⟩⟩

/-- C4: for every opcode byte that the table lists explicitly and whose kind is not one of
the eight branches, JMP_ABS, JMP_IND, JSR, RTS, RTI or BRK, fetched at `p` in any state, the pass
ends with `PC = (p + L) mod 65536`, `L` being the length in the table entry; a listed branch
whose condition is not met ends with `PC = (p + 2) mod 65536`. -/
theorem pc_advance_by_length (s : cpu) (info : opcode_info)
    (hlisted : opcodes_init.lookup (s.memory s.pc) = some info) :
    (info.opcode ∉ pc_assigning →
      ∃ s', run_step s = .next s' ∧ s'.pc = (s.pc + info.bytes) % 65536) ∧
    (branch_condition info.opcode s = some false →
      ∃ s', run_step s = .next s' ∧ s'.pc = (s.pc + 2) % 65536) := by
  have hinfo := opcodes_of_listed _ info hlisted
  constructor
  · intro hk
    obtain ⟨s2, hsw, hpc⟩ := run_switch_frame_pc info { s with pc := u16 (s.pc + 1) } hk
      (addr_ok_of_listed _ info hlisted)
    refine ⟨_, run_step_done s info s2 hinfo hsw, ?_⟩
    simp only [hpc, if_true, u16, u16i]
    omega
  · intro hb
    obtain ⟨hlt, he⟩ := opcodes_listed _ info hlisted
    have hbytes : info.bytes = 2 := by
      have := opcodes_branch _ hlt
      rw [he] at this
      have hs : (branch_condition info.opcode cpu_new).isSome = true := by
        revert hb; cases info.opcode <;> simp [branch_condition]
      exact (this hs).1
    have hsw := run_switch_branch_not_taken info { s with pc := u16 (s.pc + 1) }
      (by rw [branch_condition_pc]; exact hb)
    refine ⟨_, run_step_done s info _ hinfo hsw, ?_⟩
    simp only [if_true, u16, u16i, hbytes]
    omega

/-- C4 at `LDA $1234` (three bytes) and at a `BCC` with Carry set, both fetched at `0x0600`. -/
theorem pc_advance_by_length_witness :
    (opcodes_init.lookup (lda_absolute.memory lda_absolute.pc) = some ⟨.LDA, 3, 4, .Absolute⟩ ∧
      OpcodeType.LDA ∉ pc_assigning ∧
      ∃ s', run_step lda_absolute = .next s' ∧ s'.pc = 0x603) ∧
    (opcodes_init.lookup (bcc_carry_set.memory bcc_carry_set.pc) =
        some ⟨.BCC, 2, 2, .Relative⟩ ∧
      branch_condition .BCC bcc_carry_set = some false ∧
      ∃ s', run_step bcc_carry_set = .next s' ∧ s'.pc = 0x602) :=
  ⟨⟨by decide, by decide,
      (pc_advance_by_length lda_absolute ⟨.LDA, 3, 4, .Absolute⟩ (by decide)).1 (by decide)⟩,
    ⟨by decide, by decide,
      (pc_advance_by_length bcc_carry_set ⟨.BCC, 2, 2, .Relative⟩ (by decide)).2 (by decide)⟩⟩

/-- C5: for every state whose byte at `PC` is in `0x00..0xFE`, a pass of the loop returns to the
caller iff that byte is `0x00` (BRK); for every other byte, listed or not, the pass completes and
the loop goes on; whenever `run` started in `t` returns `s'`, some number `k` of passes takes
the loop from `t` to a state `u`, and the next pass, after the callback, fetches a BRK and is
the one that returns `s'`; and `run` is never left by the exception of `get_addr`. -/
theorem run_returns_only_at_brk (callback : Option (cpu → cpu)) (s : cpu)
    (hbyte : s.memory s.pc ≤ 0xFE) :
    ((∃ s', run_step s = .returned s') ↔ s.memory s.pc = 0x00) ∧
    (s.memory s.pc ≠ 0x00 → ∃ s', run_step s = .next s') ∧
    (∀ fuel t s', run callback fuel t = .returned s' →
      ∃ k u, k < fuel ∧ run callback k t = .next u ∧
        (run_callback callback u).memory (run_callback callback u).pc = 0x00 ∧
        run_step (run_callback callback u) = .returned s') ∧
    (∀ fuel t, run callback fuel t ≠ .thrown) :=
  ⟨⟨fun ⟨s', h⟩ => run_step_returned s s' h, fun h => ⟨_, run_step_brk s h⟩⟩,
    fun hne => run_step_continues s (by omega) hne,
    fun fuel t s' h => run_returned_trace callback fuel t s' h,
    fun fuel t => run_not_thrown callback fuel t⟩

/-- C5 at a NOP (`0xEA`), at the unlisted byte `0x02` and at a BRK (`0x00`); and at the run
of two passes over a NOP followed by a zero byte, which returns from the BRK at `0x0601`. -/
theorem run_returns_only_at_brk_witness :
    (at_opcode 0xEA).memory (at_opcode 0xEA).pc ≤ 0xFE ∧
    (at_opcode 0x02).memory (at_opcode 0x02).pc ≤ 0xFE ∧
    (at_opcode 0x00).memory (at_opcode 0x00).pc ≤ 0xFE ∧
    (∃ s', run_step (at_opcode 0xEA) = .next s') ∧
    (∃ s', run_step (at_opcode 0x02) = .next s') ∧
    (∃ s', run_step (at_opcode 0x00) = .returned s') ∧
    (run none 2 (at_opcode 0xEA) = .returned { at_opcode 0xEA with pc := 0x602 } ∧
      ∃ k u, k < 2 ∧ run none k (at_opcode 0xEA) = .next u ∧
        (run_callback none u).memory (run_callback none u).pc = 0x00 ∧
        run_step (run_callback none u) = .returned { at_opcode 0xEA with pc := 0x602 }) :=
  ⟨by decide, by decide, by decide,
    (run_returns_only_at_brk none (at_opcode 0xEA) (by decide)).2.1 (by decide),
    (run_returns_only_at_brk none (at_opcode 0x02) (by decide)).2.1 (by decide),
    (run_returns_only_at_brk none (at_opcode 0x00) (by decide)).1.mpr (by decide),
    rfl,
    (run_returns_only_at_brk none (at_opcode 0xEA) (by decide)).2.2.1 2 (at_opcode 0xEA) _ rfl⟩

/-- C6: for every byte `v` and every prior state, `load_and_run` with no callback on the program
`A9 v AA E8 00` is still running after three passes, about to fetch the BRK at `0x0604`, and
returns in the fourth pass, with `reg_a = v`, `reg_x = (v + 1) mod 256`, Zero set iff `v = 0xFF`
and Negative set iff bit 7 of `(v + 1) mod 256` is set. -/
theorem load_and_run_lda_tax_inx_brk (s : cpu) (v : Nat) (hv : v < 256) :
    ∃ t s',
      load_and_run s [0xA9, v, 0xAA, 0xE8, 0x00] none 3 = .next t ∧
      t.pc = 0x604 ∧ t.memory t.pc = 0x00 ∧
      (∀ k, load_and_run s [0xA9, v, 0xAA, 0xE8, 0x00] none (4 + k) = .returned s') ∧
      s'.reg_a = v ∧ s'.reg_x = (v + 1) % 256 ∧
      status_bit_get s' .ZeroFlag = decide (v = 0xFF) ∧
      status_bit_get s' .NegativeFlag = ((v + 1) % 256).testBit 7 := by
  unfold load_and_run
  rw [reset_load]
  have h3 : ∀ k, 4 + k = (k + 3) + 1 := fun k => by omega
  simp only [h3, run, run_callback]
  rw [run_step]
  simp [load_memory, opcodes_A9, run_switch, with_addr, get_addr, u16, u16i, mem_read]
  rw [run_step]
  simp [load_memory, opcodes_AA, run_switch, with_addr, get_addr, u16, u16i, mem_read]
  rw [run_step]
  simp [load_memory, opcodes_E8, run_switch, with_addr, get_addr, u16, u16i, u8, mem_read]
  simp [run_step, load_memory, opcodes_00, run_switch, u16, u16i, u8, mem_read,
    status_bit_get_eq_testBit, flag.toInt, uznf_testBit]
  omega

/-- C6 at `v = 0xC0`: `reg_x = 0xC1`, Negative set, Zero clear. -/
theorem load_and_run_lda_tax_inx_brk_witness :
    0xC0 < 256 ∧
    ∃ s', load_and_run cpu_new [0xA9, 0xC0, 0xAA, 0xE8, 0x00] none 4 = .returned s' ∧
      s'.reg_a = 0xC0 ∧ s'.reg_x = 0xC1 ∧
      status_bit_get s' .NegativeFlag = true ∧ status_bit_get s' .ZeroFlag = false := by
  refine ⟨by decide, ?_⟩
  obtain ⟨_, s', _, _, _, h4, ha, hx, hz, hn⟩ :=
    load_and_run_lda_tax_inx_brk cpu_new 0xC0 (by decide)
  exact ⟨s', h4 0, ha, hx, hn.trans (by decide), hz.trans (by decide)⟩

/-- C7: for every stack pointer value (the wrapping values `0x00` and `0x01` included), every
memory content and every 16-bit word `w`, `stack_push_uint16(w)` followed by
`stack_pop_uint16()` returns `w` and leaves the stack pointer at its value before the push. -/
theorem stack_push_pop_uint16 (s : cpu) (w : Nat) (hs : s.sp < 256) (hw : w < 65536) :
    (stack_pop_uint16 (stack_push_uint16 s w)).1 = w ∧
    (stack_pop_uint16 (stack_push_uint16 s w)).2.sp = s.sp := by
  simp only [stack_pop_uint16, stack_push_uint16, stack_pop, stack_push, mem_write, mem_read,
    STACK, u8, u16, u8i, and_ff, Nat.shiftRight_eq_div_pow]
  constructor
  · split_ifs <;> first
      | omega
      | (rw [shl8_or _ _ (by omega)]; omega)
  · omega

/-- C7 at the word `0x1234`, pushed with the stack pointer at `0x00`, where the pointer wraps
below zero. -/
theorem stack_push_pop_uint16_witness :
    (state_of 0 0 0 0x00 0 0 []).sp < 256 ∧ 0x1234 < 65536 ∧
    (stack_pop_uint16 (stack_push_uint16 (state_of 0 0 0 0x00 0 0 []) 0x1234)).1 = 0x1234 ∧
    (stack_pop_uint16 (stack_push_uint16 (state_of 0 0 0 0x00 0 0 []) 0x1234)).2.sp =
      (state_of 0 0 0 0x00 0 0 []).sp :=
  ⟨by decide, by decide,
    stack_push_pop_uint16 (state_of 0 0 0 0x00 0 0 []) 0x1234 (by decide) (by decide)⟩

/-- C8: for every memory content and every JMP-indirect (opcode `0x6C`) fetched at `p` whose
little-endian operand is the pointer `q`, provided the target differs from `(p + 1) mod 65536`:
if the low byte of `q` is `0xFF` the pass ends with
`PC = memory[q] | (memory[q & 0xFF00] << 8)`, otherwise with
`PC = memory[q] | (memory[q + 1] << 8)`; nothing but `PC` changes. -/
theorem jmp_indirect_target (s : cpu) (q target : Nat)
    (hmem : ∀ a, s.memory a < 256) (hop : s.memory s.pc = 0x6C)
    (hq : q = s.memory (u16 (s.pc + 1)) ||| (s.memory (u16 (s.pc + 2)) <<< 8))
    (ht : target = if q % 256 = 0xFF then s.memory q ||| (s.memory (q &&& 0xFF00) <<< 8)
      else s.memory q ||| (s.memory (q + 1) <<< 8))
    (hne : target ≠ u16 (s.pc + 1)) :
    run_step s = .next { s with pc := target } := by
  have hq16 : q < 65536 := by
    rw [hq, or_shl8 _ _ (hmem _)]
    have := hmem (u16 (s.pc + 1)); have := hmem (u16 (s.pc + 2)); omega
  have hqr : mem_read_uint16 { s with pc := u16 (s.pc + 1) } (u16 (s.pc + 1)) = q := by
    have : u16 (u16 (s.pc + 1) + 1) = u16 (s.pc + 2) := by unfold u16; omega
    rw [mem_read_uint16_eq { s with pc := u16 (s.pc + 1) } _ hmem, hq, this]
  have hsw : run_switch ⟨.JMP_IND, 3, 5, .Immediate⟩ { s with pc := u16 (s.pc + 1) } =
      .done { s with pc := target } := by
    simp only [run_switch, with_addr, get_addr, hqr, and_ff]
    by_cases hlow : q % 256 = 0xFF
    · have hand : u16 (q &&& 0xFF00) = q &&& 0xFF00 := by
        have := @Nat.and_le_left q 0xFF00
        unfold u16; omega
      simp only [hlow, if_true, hand, mem_read] at ht ⊢
      rw [ht, word_of_bytes_int _ _ (hmem _) (hmem _)]
    · simp only [hlow, if_false] at ht ⊢
      have hq1 : u16 (q + 1) = q + 1 := by unfold u16; omega
      rw [mem_read_uint16_eq { s with pc := u16 (s.pc + 1) } _ hmem, hq1, ht]
  rw [run_step_done s _ _ (by rw [hop]; exact opcodes_6C) hsw]
  simp only [if_neg (Ne.symm hne)]

/-- C8 at `q = 0x30FF` with `memory[0x30FF] = 0x40`, `memory[0x3000] = 0x80`,
`memory[0x3100] = 0x50`: the pass ends with `PC = 0x8040`. -/
theorem jmp_indirect_target_witness :
    (∀ a, jmp_indirect_30ff.memory a < 256) ∧
    jmp_indirect_30ff.memory jmp_indirect_30ff.pc = 0x6C ∧
    0x30FF = jmp_indirect_30ff.memory (u16 (jmp_indirect_30ff.pc + 1)) |||
      (jmp_indirect_30ff.memory (u16 (jmp_indirect_30ff.pc + 2)) <<< 8) ∧
    (0x8040 = if 0x30FF % 256 = 0xFF then
        jmp_indirect_30ff.memory 0x30FF ||| (jmp_indirect_30ff.memory (0x30FF &&& 0xFF00) <<< 8)
      else jmp_indirect_30ff.memory 0x30FF ||| (jmp_indirect_30ff.memory (0x30FF + 1) <<< 8)) ∧
    0x8040 ≠ u16 (jmp_indirect_30ff.pc + 1) ∧
    run_step jmp_indirect_30ff = .next { jmp_indirect_30ff with pc := 0x8040 } :=
  ⟨memory_of_lt _ (by decide), by decide, by decide, by decide, by decide,
    jmp_indirect_target jmp_indirect_30ff 0x30FF 0x8040 (memory_of_lt _ (by decide))
      (by decide) (by decide) (by decide) (by decide)⟩

/-- C9: for every prior state and every program that fits between the origin `0x0600` and the
end of the address range, `load` stores `0x00` at `0xFFFC` and `0x06` at `0xFFFD`; `reset`, in
any state, sets `PC` to the little-endian word it reads at `0xFFFC`/`0xFFFD`; after `load` that
word is `0x0600`, so `load` followed by `reset` leaves `PC = 0x0600`, with
`reg_a = reg_x = reg_y = 0`, the stack pointer at `0xFD`, and exactly the flags InterruptDisable
and Break2 set. -/
theorem load_reset_state (s : cpu) (program : List Nat)
    (_hfit : 0x600 + program.length ≤ 0x10000) :
    (load s program).memory 0xFFFC = 0x00 ∧ (load s program).memory 0xFFFD = 0x06 ∧
    (∀ t : cpu, (reset t).pc = mem_read_uint16 t 0xFFFC) ∧
    (∀ t : cpu, (∀ a, t.memory a < 256) →
      (reset t).pc = t.memory 0xFFFC ||| (t.memory 0xFFFD <<< 8)) ∧
    mem_read_uint16 (load s program) 0xFFFC = 0x0600 ∧
    (reset (load s program)).pc = 0x0600 ∧
    (reset (load s program)).reg_a = 0 ∧ (reset (load s program)).reg_x = 0 ∧
    (reset (load s program)).reg_y = 0 ∧ (reset (load s program)).sp = 0xFD ∧
    ∀ f : flag, status_bit_get (reset (load s program)) f =
      decide (f = .InterruptDisable ∨ f = .BreakCommand2) := by
  refine ⟨by simp [load_memory], by simp [load_memory], reset_pc, reset_pc_bytes,
    mem_read_uint16_load s program, ?_⟩
  rw [reset_load]
  refine ⟨rfl, rfl, rfl, rfl, rfl, ?_⟩
  intro f
  rw [status_bit_get_eq_testBit]
  dsimp only
  cases f <;> decide

/-- C9 at a five-byte program loaded over a state with non-zero registers whose reset vector
holds `AA BB`: `reset` alone reads `0xBBAA` there, and after `load` it reads `0x0600`. -/
theorem load_reset_state_witness :
    0x600 + [0xA9, 0xC0, 0xAA, 0xE8, 0x00].length ≤ 0x10000 ∧
    (∀ a, used_state.memory a < 256) ∧
    (reset used_state).pc = 0xBBAA ∧
    (reset (load used_state [0xA9, 0xC0, 0xAA, 0xE8, 0x00])).pc = 0x0600 ∧
    (reset (load used_state [0xA9, 0xC0, 0xAA, 0xE8, 0x00])).reg_a = 0 ∧
    (reset (load used_state [0xA9, 0xC0, 0xAA, 0xE8, 0x00])).sp = 0xFD ∧
    status_bit_get (reset (load used_state [0xA9, 0xC0, 0xAA, 0xE8, 0x00])) .BreakCommand2 = true ∧
    status_bit_get (reset (load used_state [0xA9, 0xC0, 0xAA, 0xE8, 0x00])) .CarryFlag = false := by
  have h := load_reset_state used_state [0xA9, 0xC0, 0xAA, 0xE8, 0x00] (by decide)
  obtain ⟨_, _, _, hbytes, _, hpc, ha, _, _, hsp, hfl⟩ := h
  exact ⟨by decide, memory_of_lt _ (by decide),
    (hbytes used_state (memory_of_lt _ (by decide))).trans (by decide), hpc, ha, hsp,
    (hfl .BreakCommand2).trans (by decide), (hfl .CarryFlag).trans (by decide)⟩

/-- C10: for every value `v` and every prior state, `update_zero_negative_flag(v)` leaves the
Zero flag set iff `v = 0` and the Negative flag set iff bit 7 of `v` is set, and leaves the other
six flags, all registers and all memory unchanged. -/
theorem update_zero_negative_flag_spec (s : cpu) (v : Nat) :
    status_bit_get (update_zero_negative_flag s v) .ZeroFlag = decide (v = 0) ∧
    status_bit_get (update_zero_negative_flag s v) .NegativeFlag = v.testBit 7 ∧
    (∀ g : flag, g ≠ .ZeroFlag → g ≠ .NegativeFlag →
      status_bit_get (update_zero_negative_flag s v) g = status_bit_get s g) ∧
    (update_zero_negative_flag s v).reg_a = s.reg_a ∧
    (update_zero_negative_flag s v).reg_x = s.reg_x ∧
    (update_zero_negative_flag s v).reg_y = s.reg_y ∧
    (update_zero_negative_flag s v).sp = s.sp ∧
    (update_zero_negative_flag s v).pc = s.pc ∧
    (update_zero_negative_flag s v).memory = s.memory := by
  unfold update_zero_negative_flag
  refine ⟨?_, ?_, ?_, ?_⟩
  · rw [status_bit_get_set, status_bit_get_set]; simp
  · rw [status_bit_get_set, and_80]; simp
  · intro g hz hn
    rw [status_bit_get_set, status_bit_get_set]; simp [hz, hn]
  · have h1 := status_bit_set_frame s .ZeroFlag (decide (v = 0))
    have h2 := status_bit_set_frame (status_bit_set s .ZeroFlag (decide (v = 0))) .NegativeFlag
      (to_bool (v &&& 0x80))
    simp only [h1, h2, and_self]

/-- C11: for every flag register value, every flag `f` and every boolean `b`, after
`status_bit_set(f, b)` the call `status_bit_get(f)` returns `b`, and for each of the other seven
flags `g` the call `status_bit_get(g)` returns what it returned before; `status_bit_get` returns
a value only, it has no state to change. -/
theorem status_bit_set_get (s : cpu) (f g : flag) (b : Bool) :
    status_bit_get (status_bit_set s f b) g = if g = f then b else status_bit_get s g :=
  status_bit_get_set s f g b

/-- C12 at the address `0xFFFF`: the array `memory` is declared with `0xFFFF` elements, so with
checked subscripts `mem_read(0xFFFF)`, `mem_write(0xFFFF, v)`, `mem_read_uint16` at `0xFFFE` and
`0xFFFF`, and `mem_write_uint16` at `0xFFFE` and `0xFFFF` all reach the out-of-bounds branch. -/
theorem memory_subscript_ffff_outside (s : cpu) (v w : Nat) :
    memory_extent = 0xFFFF ∧
    mem_read_checked s 0xFFFF = none ∧
    mem_write_checked s 0xFFFF v = none ∧
    mem_read_uint16_checked s 0xFFFE = none ∧
    mem_read_uint16_checked s 0xFFFF = none ∧
    mem_write_uint16_checked s 0xFFFE w = none ∧
    mem_write_uint16_checked s 0xFFFF w = none := by
  refine ⟨rfl, rfl, rfl, rfl, ?_, rfl, rfl⟩
  simp [mem_read_uint16_checked, mem_read_checked, memory_extent, u16]

set_option maxRecDepth 100000 in
/-- C13 at the opcode byte `0xFF`: the array `opcodes` is declared with `0xFF` elements, so the
lookup `opcodes[0xFF]` of the loop is outside the table, while every `b < 0xFF` has an
element. -/
theorem opcodes_subscript_ff_outside :
    opcodes_extent = 0xFF ∧ opcodes 0xFF = none ∧
    run_step (at_opcode 0xFF) = .outside_table ∧
    (List.range 0xFF).all (fun b => (opcodes b).isSome) = true :=
  ⟨rfl, by decide, rfl, by decide⟩

/-- C14 at operand byte `0x80` and index `0x80`: `get_addr(ZeroPage_X)` and
`get_addr(ZeroPage_Y)` return the sum reduced modulo 65536, here `0x0100`, outside page zero,
while `(memory[PC] + index) mod 256` is `0x00`. -/
theorem get_addr_zero_page_indexed_no_wrap :
    (∀ s : cpu, get_addr s .ZeroPage_X = some ((s.memory s.pc + s.reg_x) % 65536)) ∧
    (∀ s : cpu, get_addr s .ZeroPage_Y = some ((s.memory s.pc + s.reg_y) % 65536)) ∧
    get_addr zero_page_80_80 .ZeroPage_X = some 0x100 ∧
    get_addr zero_page_80_80 .ZeroPage_Y = some 0x100 ∧
    (zero_page_80_80.memory zero_page_80_80.pc + zero_page_80_80.reg_x) % 256 = 0x00 ∧
    (zero_page_80_80.memory zero_page_80_80.pc + zero_page_80_80.reg_y) % 256 = 0x00 :=
  ⟨fun _ => rfl, fun _ => rfl, by decide, by decide, by decide, by decide⟩

/-- C15 at `t = p + 1`: a JMP-absolute (`4C 01 06`) and a JSR (`20 01 06`) fetched at `0x0600`
whose operand is `0x0601` end the pass with `PC = 0x0603`, not `0x0601`. -/
theorem jump_to_own_operand_pc :
    mem_read_uint16 (jump_to_operand 0x4C) 0x601 = 0x601 ∧
    (∃ s', run_step (jump_to_operand 0x4C) = .next s' ∧ s'.pc = 0x603) ∧
    (∃ s', run_step (jump_to_operand 0x20) = .next s' ∧ s'.pc = 0x603) :=
  ⟨by decide, ⟨_, rfl, by decide⟩, ⟨_, rfl, by decide⟩⟩

/-- C16 in the counterexample: a JSR fetched at `p = 0x01FC` with operand `t = 0x1234`
(different from `p + 1`) and stack pointer `0xFD` ends the pass with `PC = 0x1201`, because the
push overwrites the low operand byte before the target is read. -/
theorem jsr_in_stack_page_pc :
    jsr_in_stack.memory jsr_in_stack.pc = 0x20 ∧
    jsr_in_stack.memory (u16 (jsr_in_stack.pc + 1)) |||
      (jsr_in_stack.memory (u16 (jsr_in_stack.pc + 2)) <<< 8) = 0x1234 ∧
    0x1234 ≠ u16 (jsr_in_stack.pc + 1) ∧
    ∃ s', run_step jsr_in_stack = .next s' ∧ s'.pc = 0x1201 ∧ s'.pc ≠ 0x1234 :=
  ⟨by decide, by decide, by decide, _, rfl, by decide, by decide⟩

/-- C16 amended: for every JSR (opcode `0x20`) fetched at `p` with operand `t` different from
`(p + 1) mod 65536` and every stack pointer `s`, provided neither operand byte is one of the two
stack bytes the push writes: the pass stores the high byte of `(p + 2) mod 65536` at
`0x0100 + s` and its low byte at `0x0100 + ((s - 1) mod 256)`, changes no other memory byte,
leaves the stack pointer at `(s - 2) mod 256` and ends with `PC = t`; if the byte at `t` is then
`0x60` (RTS), the next pass ends with `PC = (p + 3) mod 65536` and the stack pointer at `s`. -/
theorem jsr_then_rts (s : cpu) (t : Nat)
    (hmem : ∀ a, s.memory a < 256) (hsp : s.sp < 256) (hop : s.memory s.pc = 0x20)
    (ht : t = s.memory (u16 (s.pc + 1)) ||| (s.memory (u16 (s.pc + 2)) <<< 8))
    (hne : t ≠ u16 (s.pc + 1))
    (h1 : u16 (s.pc + 1) ≠ STACK + s.sp) (h2 : u16 (s.pc + 1) ≠ STACK + (s.sp + 255) % 256)
    (h3 : u16 (s.pc + 2) ≠ STACK + s.sp) (h4 : u16 (s.pc + 2) ≠ STACK + (s.sp + 255) % 256) :
    ∃ s1, run_step s = .next s1 ∧
      s1.memory (STACK + s.sp) = (s.pc + 2) % 65536 / 256 ∧
      s1.memory (STACK + (s.sp + 255) % 256) = (s.pc + 2) % 65536 % 256 ∧
      (∀ a, a ≠ STACK + s.sp → a ≠ STACK + (s.sp + 255) % 256 → s1.memory a = s.memory a) ∧
      s1.sp = (s.sp + 254) % 256 ∧ s1.pc = t ∧
      (s1.memory t = 0x60 →
        ∃ s2, run_step s1 = .next s2 ∧ s2.pc = (s.pc + 3) % 65536 ∧ s2.sp = s.sp) := by
  have hw : u16 (u16 (s.pc + 1) + 2 - 1) = (s.pc + 2) % 65536 := by unfold u16; omega
  have hw16 : (s.pc + 2) % 65536 < 65536 := by omega
  have e2 : u16 (u16 (s.pc + 1) + 1) = u16 (s.pc + 2) := by unfold u16; omega
  have hdiff : STACK + s.sp ≠ STACK + (s.sp + 255) % 256 := by omega
  have hpush := stack_push_uint16_eq { s with pc := u16 (s.pc + 1) } ((s.pc + 2) % 65536)
    hsp hw16
  obtain ⟨m, hm⟩ : ∃ m : Nat → Nat, m = fun a =>
      (if a = STACK + (s.sp + 255) % 256 then (s.pc + 2) % 65536 % 256
       else if a = STACK + s.sp then (s.pc + 2) % 65536 / 256 else s.memory a) := ⟨_, rfl⟩
  have hm_hi : m (STACK + s.sp) = (s.pc + 2) % 65536 / 256 := by
    rw [hm]; dsimp only; rw [if_neg hdiff, if_pos rfl]
  have hm_lo : m (STACK + (s.sp + 255) % 256) = (s.pc + 2) % 65536 % 256 := by
    rw [hm]; dsimp only; rw [if_pos rfl]
  have hsw : run_switch ⟨.JSR, 3, 6, .Immediate⟩ { s with pc := u16 (s.pc + 1) } = .done
      { s with sp := (s.sp + 254) % 256, memory := m, pc := t } := by
    rw [hm]
    simp only [run_switch, hw, hpush, mem_read_uint16, mem_read, e2, if_neg h1, if_neg h2,
      if_neg h3, if_neg h4]
    rw [word_of_bytes _ _ (hmem _) (hmem _), ← ht]
  refine ⟨_, run_step_done s _ _ (by rw [hop]; exact opcodes_20) hsw, ?_⟩
  rw [if_neg (Ne.symm hne)]
  have hm_other : ∀ a, a ≠ STACK + s.sp → a ≠ STACK + (s.sp + 255) % 256 →
      m a = s.memory a := by
    intro a ha hb
    rw [hm]; dsimp only; rw [if_neg hb, if_neg ha]
  refine ⟨hm_hi, hm_lo, hm_other, rfl, rfl, ?_⟩
  intro hrts
  have hrts' : m t = 0x60 := hrts
  have e3 : ((s.sp + 254) % 256 + 1) % 256 = (s.sp + 255) % 256 := by omega
  have e4 : ((s.sp + 254) % 256 + 2) % 256 = s.sp := by omega
  have hpop := stack_pop_uint16_eq
    { s with sp := (s.sp + 254) % 256, memory := m, pc := u16 (t + 1) }
    (by dsimp only; rw [e3, hm_lo]; omega) (by dsimp only; rw [e4, hm_hi]; omega)
  dsimp only at hpop
  rw [e3, e4, hm_lo, hm_hi] at hpop
  have hsw2 : run_switch ⟨.RTS, 1, 6, .Implied⟩
      { s with sp := (s.sp + 254) % 256, memory := m, pc := u16 (t + 1) } = .done
      { s with memory := m, pc := (s.pc + 3) % 65536 } := by
    simp only [run_switch, hpop]
    congr 2
    unfold u16; omega
  have hstep := run_step_done { s with sp := (s.sp + 254) % 256, memory := m, pc := t }
    ⟨.RTS, 1, 6, .Implied⟩ _ (by dsimp only; rw [hrts']; exact opcodes_60) hsw2
  refine ⟨_, hstep, ?_, ?_⟩
  · split
    · dsimp only [u16i]; omega
    · rfl
  · split <;> rfl

/-- C16 amended, at `JSR $0610` fetched at `0x0600` with stack pointer `0xFD` and an RTS at
`0x0610`: the pass pushes `0x0602`, and the RTS returns to `0x0603`. -/
theorem jsr_then_rts_witness :
    (∀ a, jsr_0610.memory a < 256) ∧ jsr_0610.sp < 256 ∧
    jsr_0610.memory jsr_0610.pc = 0x20 ∧
    0x610 = jsr_0610.memory (u16 (jsr_0610.pc + 1)) |||
      (jsr_0610.memory (u16 (jsr_0610.pc + 2)) <<< 8) ∧
    0x610 ≠ u16 (jsr_0610.pc + 1) ∧
    u16 (jsr_0610.pc + 1) ≠ STACK + jsr_0610.sp ∧
    u16 (jsr_0610.pc + 1) ≠ STACK + (jsr_0610.sp + 255) % 256 ∧
    u16 (jsr_0610.pc + 2) ≠ STACK + jsr_0610.sp ∧
    u16 (jsr_0610.pc + 2) ≠ STACK + (jsr_0610.sp + 255) % 256 ∧
    ∃ s1 s2, run_step jsr_0610 = .next s1 ∧
      s1.memory 0x1FD = 0x06 ∧ s1.memory 0x1FC = 0x02 ∧ s1.sp = 0xFB ∧ s1.pc = 0x610 ∧
      run_step s1 = .next s2 ∧ s2.pc = 0x603 ∧ s2.sp = 0xFD := by
  refine ⟨memory_of_lt _ (by decide), by decide, by decide, by decide, by decide, by decide,
    by decide, by decide, by decide, ?_⟩
  obtain ⟨s1, hstep, hhi, hlo, hfr, hsp, hpc, hrts⟩ :=
    jsr_then_rts jsr_0610 0x610 (memory_of_lt _ (by decide)) (by decide) (by decide)
      (by decide) (by decide) (by decide) (by decide) (by decide) (by decide)
  obtain ⟨s2, hstep2, hpc2, hsp2⟩ :=
    hrts ((hfr 0x610 (by decide) (by decide)).trans (by decide))
  exact ⟨s1, s2, hstep, hhi.trans (by decide), hlo.trans (by decide), hsp.trans (by decide),
    hpc, hstep2, hpc2.trans (by decide), hsp2.trans (by decide)⟩

/-- C17 at `ASL $10` with `d = 0x01` and with `d = 0x40`: the pass writes `(d << 2) mod 256`
(`0x04`, `0x00`) to the effective address, not `(d << 1) mod 256` (`0x02`, `0x80`); with
`d = 0x40` the written byte is zero and the Zero flag is left clear. -/
theorem asl_memory_written_byte :
    (∃ s', run_step (asl_zero_page 0x01) = .next s' ∧ s'.memory 0x10 = 0x04 ∧
      (0x01 <<< 1) % 256 = 0x02) ∧
    (∃ s', run_step (asl_zero_page 0x40) = .next s' ∧ s'.memory 0x10 = 0x00 ∧
      (0x40 <<< 1) % 256 = 0x80 ∧
      status_bit_get s' .ZeroFlag = false ∧ status_bit_get s' .NegativeFlag = true) :=
  ⟨⟨_, rfl, by decide, by decide⟩, ⟨_, rfl, by decide, by decide, by decide, by decide⟩⟩

/-- C18 at `A = 0x80` and at `A = 0x40`, with all flags clear before: `ASL A` sets Carry from
bit 7 and shifts the accumulator, and leaves Zero and Negative as they were: the result `0x00`
leaves Zero clear and the result `0x80` leaves Negative clear. -/
theorem asl_accumulator_flags_not_updated :
    (∃ s', run_step (asl_accumulator 0x80) = .next s' ∧ s'.reg_a = 0x00 ∧
      status_bit_get s' .CarryFlag = true ∧ status_bit_get s' .ZeroFlag = false) ∧
    (∃ s', run_step (asl_accumulator 0x40) = .next s' ∧ s'.reg_a = 0x80 ∧
      status_bit_get s' .CarryFlag = false ∧ status_bit_get s' .NegativeFlag = false) :=
  ⟨⟨_, rfl, by decide, by decide, by decide⟩, ⟨_, rfl, by decide, by decide, by decide⟩⟩

/-- C19 at `reg_x = 0x00` and at `reg_x = 0x80`, with all flags clear before: TXS copies
`reg_x` into the stack pointer and then changes the flag register, to `0x02` (Zero set) and to
`0x80` (Negative set), where the claim leaves the entire flag register unchanged. -/
theorem txs_changes_flags :
    (txs_input 0x00).status = 0x00 ∧
    (∃ s', run_step (txs_input 0x00) = .next s' ∧ s'.sp = 0x00 ∧ s'.status = 0x02 ∧
      s'.status ≠ (txs_input 0x00).status) ∧
    (∃ s', run_step (txs_input 0x80) = .next s' ∧ s'.sp = 0x80 ∧ s'.status = 0x80 ∧
      s'.status ≠ (txs_input 0x80).status) :=
  ⟨by decide, ⟨_, rfl, by decide, by decide, by decide⟩,
    ⟨_, rfl, by decide, by decide, by decide⟩⟩

/-- C20 in the counterexample: `SBC #$10` with `A = 0x10` and Carry clear leaves the
accumulator at `0xFF` with Carry clear, while `A + ((~M + 1) mod 256) + c` is `0x100`, whose low
eight bits are `0x00` and which exceeds `0xFF`. -/
theorem sbc_operand_not_twos_complement :
    (∃ s', run_step (sbc_immediate 0x10 0x10 0x00) = .next s' ∧ s'.reg_a = 0xFF ∧
      status_bit_get s' .CarryFlag = false) ∧
    ((255 - 0x10) + 1) % 256 = 0xF0 ∧
    (0x10 + ((255 - 0x10) + 1) % 256 + 0) % 256 = 0x00 ∧
    0x10 + ((255 - 0x10) + 1) % 256 + 0 > 0xFF :=
  ⟨⟨_, rfl, by decide, by decide⟩, by decide, by decide, by decide⟩

/-- C20 amended: for every accumulator value `A`, operand byte `M` and incoming Carry `c`, SBC
forms its intermediate as `A + N + c`, where `N` is the one's complement of `M` taken as an
8-bit value (`255 - M`); the new accumulator is the low 8 bits of that intermediate and Carry
is set iff the intermediate exceeds `0xFF`. -/
theorem sbc_intermediate_ones_complement (s : cpu) (info : opcode_info) (addr : Nat)
    (hinfo : opcodes (s.memory s.pc) = some info) (hop : info.opcode = .SBC)
    (haddr : get_addr { s with pc := u16 (s.pc + 1) } info.mode = some addr)
    (hA : s.reg_a < 256) (hM : s.memory addr < 256) :
    ∃ s', run_step s = .next s' ∧
      s'.reg_a =
        (s.reg_a + (255 - s.memory addr) + of_bool (status_bit_get s .CarryFlag)) % 256 ∧
      status_bit_get s' .CarryFlag =
        decide (s.reg_a + (255 - s.memory addr) + of_bool (status_bit_get s .CarryFlag) >
          0xFF) := by
  have hc := of_bool_le (s.status.testBit 0)
  have hb : u8i (-((s.memory addr : Int) + 1)) = 255 - s.memory addr := by
    unfold u8i; omega
  refine ⟨_, run_step_done s info _ hinfo (sbc_switch info _ addr hop haddr), ?_⟩
  simp only [uznf_pc, status_bit_set_pc, if_true, status_bit_get_eq_testBit, flag.toInt,
    uznf_reg_a, uznf_testBit, status_bit_set_testBit, mem_read, and_ff, u8, u16, hb]
  generalize of_bool (s.status.testBit 0) = c at hc ⊢
  refine ⟨by omega, ?_⟩
  simp only [Nat.reduceLT, decide_True, Bool.true_and, OfNat.zero_ne_ofNat, if_false,
    OfNat.ofNat_ne_one]
  exact decide_eq_decide.mpr (by omega)

/-- C20 amended, at `SBC #$10` with `A = 0x50` and Carry set: accumulator `0x40`, Carry set. -/
theorem sbc_intermediate_ones_complement_witness :
    opcodes ((sbc_immediate 0x50 0x10 0x01).memory (sbc_immediate 0x50 0x10 0x01).pc) =
      some ⟨.SBC, 2, 2, .Immediate⟩ ∧
    (⟨.SBC, 2, 2, .Immediate⟩ : opcode_info).opcode = .SBC ∧
    get_addr
      { sbc_immediate 0x50 0x10 0x01 with pc := u16 ((sbc_immediate 0x50 0x10 0x01).pc + 1) }
      (⟨.SBC, 2, 2, .Immediate⟩ : opcode_info).mode = some 0x601 ∧
    (sbc_immediate 0x50 0x10 0x01).reg_a < 256 ∧
    (sbc_immediate 0x50 0x10 0x01).memory 0x601 < 256 ∧
    ∃ s', run_step (sbc_immediate 0x50 0x10 0x01) = .next s' ∧ s'.reg_a = 0x40 ∧
      status_bit_get s' .CarryFlag = true := by
  refine ⟨by decide, rfl, by decide, by decide, by decide, ?_⟩
  obtain ⟨s', h, ha, hc⟩ :=
    sbc_intermediate_ones_complement (sbc_immediate 0x50 0x10 0x01) ⟨.SBC, 2, 2, .Immediate⟩
      0x601 (by decide) rfl (by decide) (by decide) (by decide)
  exact ⟨s', h, ha.trans (by decide), hc.trans (by decide)⟩

/-- C21: for every accumulator value `A`, operand byte `M` and incoming Carry `c`, SBC leaves
the accumulator equal to `(A - M - (1 - c)) mod 256` and sets Carry iff `A >= M + (1 - c)` over
the integers (no borrow); Zero is set iff the new accumulator is 0 and Negative iff its bit 7 is
set. -/
theorem sbc_difference_and_borrow (s : cpu) (info : opcode_info) (addr : Nat)
    (hinfo : opcodes (s.memory s.pc) = some info) (hop : info.opcode = .SBC)
    (haddr : get_addr { s with pc := u16 (s.pc + 1) } info.mode = some addr)
    (hA : s.reg_a < 256) (hM : s.memory addr < 256) :
    ∃ s', run_step s = .next s' ∧
      (s'.reg_a : Int) = ((s.reg_a : Int) - (s.memory addr : Int) -
        (1 - (of_bool (status_bit_get s .CarryFlag) : Int))) % 256 ∧
      status_bit_get s' .CarryFlag = decide ((s.reg_a : Int) ≥
        (s.memory addr : Int) + (1 - (of_bool (status_bit_get s .CarryFlag) : Int))) ∧
      status_bit_get s' .ZeroFlag = decide (s'.reg_a = 0) ∧
      status_bit_get s' .NegativeFlag = s'.reg_a.testBit 7 := by
  have hc := of_bool_le (s.status.testBit 0)
  have hb : u8i (-((s.memory addr : Int) + 1)) = 255 - s.memory addr := by
    unfold u8i; omega
  refine ⟨_, run_step_done s info _ hinfo (sbc_switch info _ addr hop haddr), ?_⟩
  simp only [uznf_pc, status_bit_set_pc, if_true, status_bit_get_eq_testBit, flag.toInt,
    uznf_reg_a, uznf_testBit, status_bit_set_testBit, mem_read, and_ff, u8, u16, hb]
  generalize of_bool (s.status.testBit 0) = c at hc ⊢
  refine ⟨by omega, ?_, ?_, ?_⟩
  · simp only [Nat.reduceLT, decide_True, Bool.true_and, OfNat.zero_ne_ofNat, if_false,
      OfNat.ofNat_ne_one]
    exact decide_eq_decide.mpr (by omega)
  · simp
  · simp

/-- C21 at `A = 0x50, M = 0x10, c = 1` (accumulator `0x40`, no borrow: Carry set) and at
`A = 0x10, M = 0x20, c = 1` (accumulator `0xF0`, borrow: Carry clear, Negative set). -/
theorem sbc_difference_and_borrow_witness :
    opcodes ((sbc_immediate 0x50 0x10 0x01).memory (sbc_immediate 0x50 0x10 0x01).pc) =
      some ⟨.SBC, 2, 2, .Immediate⟩ ∧
    opcodes (sbc_borrow.memory sbc_borrow.pc) = some ⟨.SBC, 2, 2, .Immediate⟩ ∧
    (⟨.SBC, 2, 2, .Immediate⟩ : opcode_info).opcode = .SBC ∧
    get_addr
      { sbc_immediate 0x50 0x10 0x01 with pc := u16 ((sbc_immediate 0x50 0x10 0x01).pc + 1) }
      (⟨.SBC, 2, 2, .Immediate⟩ : opcode_info).mode = some 0x601 ∧
    get_addr { sbc_borrow with pc := u16 (sbc_borrow.pc + 1) }
      (⟨.SBC, 2, 2, .Immediate⟩ : opcode_info).mode = some 0x601 ∧
    (sbc_immediate 0x50 0x10 0x01).reg_a < 256 ∧
    (sbc_immediate 0x50 0x10 0x01).memory 0x601 < 256 ∧
    sbc_borrow.reg_a < 256 ∧ sbc_borrow.memory 0x601 < 256 ∧
    (∃ s', run_step (sbc_immediate 0x50 0x10 0x01) = .next s' ∧ s'.reg_a = 0x40 ∧
      status_bit_get s' .CarryFlag = true ∧ status_bit_get s' .ZeroFlag = false ∧
      status_bit_get s' .NegativeFlag = false) ∧
    (∃ s', run_step sbc_borrow = .next s' ∧ s'.reg_a = 0xF0 ∧
      status_bit_get s' .CarryFlag = false ∧ status_bit_get s' .ZeroFlag = false ∧
      status_bit_get s' .NegativeFlag = true) := by
  refine ⟨by decide, by decide, rfl, by decide, by decide, by decide, by decide, by decide,
    by decide, ?_, ?_⟩
  · obtain ⟨s', h, ha, hc, hz, hn⟩ :=
      sbc_difference_and_borrow (sbc_immediate 0x50 0x10 0x01) ⟨.SBC, 2, 2, .Immediate⟩ 0x601
        (by decide) rfl (by decide) (by decide) (by decide)
    have ha' : s'.reg_a = 0x40 :=
      Int.ofNat_inj.mp (ha.trans (show _ = ((0x40 : Nat) : Int) by decide))
    refine ⟨s', h, ha', hc.trans (by decide), ?_, ?_⟩
    · rw [hz, ha']; decide
    · rw [hn, ha']; decide
  · obtain ⟨s', h, ha, hc, hz, hn⟩ :=
      sbc_difference_and_borrow sbc_borrow ⟨.SBC, 2, 2, .Immediate⟩ 0x601
        (by decide) rfl (by decide) (by decide) (by decide)
    have ha' : s'.reg_a = 0xF0 :=
      Int.ofNat_inj.mp (ha.trans (show _ = ((0xF0 : Nat) : Int) by decide))
    refine ⟨s', h, ha', hc.trans (by decide), ?_, ?_⟩
    · rw [hz, ha']; decide
    · rw [hn, ha']; decide

/-- C22: `get_addr` fails exactly at the mode `Implied`; for every opcode byte in `0x00..0xFE`,
listed or not, and every state, the case selected by the table element does not evaluate
`get_addr` when the element's mode is `Implied`, and the pass never ends in the exception of
`get_addr`. -/
theorem run_step_never_throws (s : cpu) (hbyte : s.memory s.pc ≤ 0xFE) :
    (∀ (t : cpu) (mode : AddressingMode), get_addr t mode = none ↔ mode = .Implied) ∧
    (∀ t : cpu, ¬ ((opcodes_elem (s.memory s.pc)).mode = .Implied ∧
      evaluates_get_addr (opcodes_elem (s.memory s.pc)).opcode t = true)) ∧
    run_step s ≠ .thrown := by
  have hlt : s.memory s.pc < 255 := by omega
  refine ⟨get_addr_none_iff, ?_, run_step_not_thrown s⟩
  intro t h
  exact run_switch_not_thrown _ t (opcodes_addr_ok _ hlt) ((run_switch_thrown_iff _ t).mpr h)

/-- C22 at `ASL A` (`0x0A`, mode `Implied`), at `LDA #` (`0xA9`) and at the unlisted byte
`0x02`. -/
theorem run_step_never_throws_witness :
    (at_opcode 0x0A).memory (at_opcode 0x0A).pc ≤ 0xFE ∧
    (at_opcode 0xA9).memory (at_opcode 0xA9).pc ≤ 0xFE ∧
    (at_opcode 0x02).memory (at_opcode 0x02).pc ≤ 0xFE ∧
    (opcodes_elem 0x0A).mode = .Implied ∧
    evaluates_get_addr (opcodes_elem 0x0A).opcode (at_opcode 0x0A) = false ∧
    run_step (at_opcode 0x0A) ≠ .thrown ∧
    run_step (at_opcode 0xA9) ≠ .thrown ∧
    run_step (at_opcode 0x02) ≠ .thrown :=
  ⟨by decide, by decide, by decide, by decide, by decide,
    (run_step_never_throws (at_opcode 0x0A) (by decide)).2.2,
    (run_step_never_throws (at_opcode 0xA9) (by decide)).2.2,
    (run_step_never_throws (at_opcode 0x02) (by decide)).2.2⟩

/-- C23: for every opcode byte in `0x00..0xFE` without an initialiser in the table, the table
element is `{ADC, 0, 0, Immediate}`, each field the first enumerator or zero; a pass that
fetches such a byte at `p` executes ADC with the byte at `p + 1` as operand and ends with
`PC = p`. -/
theorem unlisted_opcode_runs_adc_in_place (s : cpu)
    (hbyte : s.memory s.pc ≤ 0xFE) (hunlisted : opcodes_init.lookup (s.memory s.pc) = none)
    (hpc : s.pc < 65536) (hA : s.reg_a < 256) (hM : s.memory (u16 (s.pc + 1)) < 256) :
    opcodes (s.memory s.pc) = some ⟨.ADC, 0, 0, .Immediate⟩ ∧
    OpcodeType.toCtorIdx .ADC = 0 ∧ AddressingMode.toCtorIdx .Immediate = 0 ∧
    ∃ s', run_step s = .next s' ∧ s'.pc = s.pc ∧
      s'.reg_a = (s.reg_a + s.memory (u16 (s.pc + 1)) +
        of_bool (status_bit_get s .CarryFlag)) % 256 ∧
      status_bit_get s' .CarryFlag = decide (s.reg_a + s.memory (u16 (s.pc + 1)) +
        of_bool (status_bit_get s .CarryFlag) > 255) ∧
      status_bit_get s' .ZeroFlag = decide (s'.reg_a = 0) ∧
      status_bit_get s' .NegativeFlag = s'.reg_a.testBit 7 := by
  have hinfo := opcodes_unlisted _ (by omega) hunlisted
  have hc := of_bool_le (s.status.testBit 0)
  simp only [u16] at hM
  refine ⟨hinfo, rfl, rfl, _, run_step_done s _ _ hinfo
    (adc_switch ⟨.ADC, 0, 0, .Immediate⟩ _ (u16 (s.pc + 1)) rfl rfl), ?_⟩
  simp only [uznf_pc, status_bit_set_pc, if_true, status_bit_get_eq_testBit, flag.toInt,
    uznf_reg_a, uznf_testBit, status_bit_set_testBit, mem_read, and_ff, u8, u16, u16i]
  generalize of_bool (s.status.testBit 0) = c at hc ⊢
  refine ⟨by omega, by omega, ?_, ?_, ?_⟩
  · simp only [Nat.reduceLT, decide_True, Bool.true_and, OfNat.zero_ne_ofNat, if_false,
      OfNat.ofNat_ne_one]
    exact decide_eq_decide.mpr (by omega)
  · simp
  · simp

/-- C23 at the unlisted byte `0x02` fetched at `0x0600` with `0x22` after it and accumulator
`0x10`: the accumulator becomes `0x32` and `PC` stays `0x0600`. -/
theorem unlisted_opcode_runs_adc_in_place_witness :
    unlisted_02.memory unlisted_02.pc ≤ 0xFE ∧
    opcodes_init.lookup (unlisted_02.memory unlisted_02.pc) = none ∧
    unlisted_02.pc < 65536 ∧ unlisted_02.reg_a < 256 ∧
    unlisted_02.memory (u16 (unlisted_02.pc + 1)) < 256 ∧
    ∃ s', run_step unlisted_02 = .next s' ∧ s'.pc = 0x600 ∧ s'.reg_a = 0x32 ∧
      status_bit_get s' .CarryFlag = false := by
  refine ⟨by decide, by decide, by decide, by decide, by decide, ?_⟩
  obtain ⟨_, _, _, s', h, hpc, ha, hc, _, _⟩ :=
    unlisted_opcode_runs_adc_in_place unlisted_02 (by decide) (by decide) (by decide)
      (by decide) (by decide)
  exact ⟨s', h, hpc, ha.trans (by decide), hc.trans (by decide)⟩

end nes_simulator
